import Mathlib

/-!
# Codec adapters of webrtc-x264

A shallow embedding of `audio_encoder_isac_t.h`, `audio_encoder_isac_t_impl.h`,
`audio_encoder.cc` and `h264_encoder_impl.cc`, and a model of the buffer pool
declared in `vp9_frame_buffer_pool.h`, followed by theorems about the
configuration validator, the packetizer state machine, the decoder adapter, the
Store, the error paths, the pool and the H.264 encoder.

Conventions of the embedding:
* C++ `int` is `Int`; `size_t` and `uint32_t` values are `Nat` (they are only
  stored, compared and copied, never added, so no wrap-around arises; the one
  conversion from a possibly negative `int` goes through `static_cast_size_t`).
* A pointer to a Store is `Option Nat`: `none` is `nullptr`, `some a` is the
  Store at address `a` of the `Stores` memory.
* `RTC_CHECK*` is a fatal check: a method that fails one ends in `Except.error`
  carrying the check that failed and the object as it was at that moment.
* The native engine `T` is an external collaborator. What its functions return
  during one call of an adapter method is given by an `IsacT` value; every
  `T::` call issued by a non-const method is appended to the ghost field
  `calls` of the adapter.
-/

namespace webrtc

/-! ## Configuration -/

/-- The struct `AudioEncoderIsacT<T>::Config` with its default member values
(`kDefaultBitRate` is 32000). -/
structure Config where
  bwinfo : Option Nat := none
  payload_type : Int := 103
  sample_rate_hz : Int := 16000
  frame_size_ms : Int := 30
  bit_rate : Int := 32000
  max_payload_size_bytes : Int := -1
  max_bit_rate : Int := -1
  adaptive_mode : Bool := false
  enforce_frame_size : Bool := false
  deriving DecidableEq, Repr

/-- The constant `kDefaultBitRate` of the encoder adapter. -/
def kDefaultBitRate : Int := 32000

/-- The validator `AudioEncoderIsacT<T>::Config::IsOk`; `has_swb` is the static
member `T::has_swb` of the engine. -/
def Config.IsOk (has_swb : Bool) (c : Config) : Bool :=
  if c.max_bit_rate < 32000 && c.max_bit_rate != -1 then false
  else if c.max_payload_size_bytes < 120 && c.max_payload_size_bytes != -1 then false
  else if c.adaptive_mode && !c.bwinfo.isSome then false
  else if c.sample_rate_hz == 16000 then
    if c.max_bit_rate > 53400 then false
    else if c.max_payload_size_bytes > 400 then false
    else (c.frame_size_ms == 30 || c.frame_size_ms == 60) &&
         (c.bit_rate == 0 || (c.bit_rate >= 10000 && c.bit_rate <= 32000))
  else if c.sample_rate_hz == 32000 || c.sample_rate_hz == 48000 then
    if c.max_bit_rate > 160000 then false
    else if c.max_payload_size_bytes > 600 then false
    else has_swb &&
         (c.frame_size_ms == 30 &&
          (c.bit_rate == 0 || (c.bit_rate >= 10000 && c.bit_rate <= 56000)))
  else false

/-- The combinations listed in the comment above `Config`: what the
specification calls the documented (sample rate, frame size, bit rate)
combinations. -/
def documentedCombination (has_swb : Bool) (c : Config) : Prop :=
  (c.sample_rate_hz = 16000 ∧ (c.frame_size_ms = 30 ∨ c.frame_size_ms = 60) ∧
    10000 ≤ c.bit_rate ∧ c.bit_rate ≤ 32000) ∨
  ((c.sample_rate_hz = 32000 ∨ c.sample_rate_hz = 48000) ∧ has_swb = true ∧
    c.frame_size_ms = 30 ∧ 10000 ≤ c.bit_rate ∧ c.bit_rate ≤ 56000)

/-! ## The Store and the native engine -/

/-- Modelled from the spec: the type `IsacBandwidthInfo` (its header
`bandwidth_info.h` is not among the sources), a codec-specific blob of channel
data that the adapters only copy by value. -/
structure IsacBandwidthInfo where
  blob : List Int
  deriving DecidableEq, Repr

/-- Modelled from the spec: the class `LockedIsacBandwidthInfo` (its header
`locked_bandwidth_info.h` is not among the sources), the lock-guarded holder of
the latest bandwidth estimate. The lock itself is not represented. -/
structure LockedIsacBandwidthInfo where
  bwinfo_ : IsacBandwidthInfo
  deriving DecidableEq, Repr

/-- Modelled from the spec: `get()` returns a copy of the canonical value. -/
def LockedIsacBandwidthInfo.Get (l : LockedIsacBandwidthInfo) : IsacBandwidthInfo :=
  l.bwinfo_

/-- Modelled from the spec: `set(v)` replaces the canonical value. -/
def LockedIsacBandwidthInfo.Set (_l : LockedIsacBandwidthInfo) (bwinfo : IsacBandwidthInfo) :
    LockedIsacBandwidthInfo :=
  { bwinfo_ := bwinfo }

/-- The memory holding the Stores: address to Store. -/
abbrev Stores := Nat → LockedIsacBandwidthInfo

/-- The calls `T::f(isac_state_, ...)` an adapter can issue, with the arguments
the adapter chooses (output buffers are left out). -/
inductive EngineCall where
  | Free
  | Create
  | EncoderInit (CodingMode : Int)
  | SetEncSampRate (sample_rate_hz : Int)
  | Control (bit_rate : Int) (frame_size_ms : Int)
  | ControlBwe (bit_rate : Int) (frame_size_ms : Int) (enforce_frame_size : Bool)
  | SetMaxPayloadSize (max_payload_size_bytes : Int)
  | SetMaxRate (max_bit_rate : Int)
  | SetDecSampRate (sample_rate_hz : Int)
  | SetBandwidthInfo (bwinfo : IsacBandwidthInfo)
  | GetBandwidthInfo
  | Encode (audio : List Int)
  | GetErrorCode
  | DecoderInit
  | DecodeInternal (encoded : List Nat)
  | DecodePlc (num_frames : Nat)
  | UpdateBwEstimate (payload : List Nat) (rtp_sequence_number : Nat)
      (rtp_timestamp : Nat) (arrival_timestamp : Nat)
  deriving DecidableEq, Repr

/-- The template parameter `T` as the adapter observes it during one call of
an adapter method: the static flag `has_swb`, the `int` each `T::` function
returns (`ret`), the blob `GetBandwidthInfo` writes, what `T::DecodeInternal`
leaves in the speech-type cell given its prior content, and what the const
queries `EncSampRate` and `GetNewFrameLen` return. Within one adapter method
every `T::` function is called at most once, so one value of `IsacT` per
adapter call describes an arbitrary stateful engine. -/
structure IsacT where
  has_swb : Bool
  ret : EngineCall → Int
  GetBandwidthInfo : IsacBandwidthInfo
  speech_type : Int → Int
  EncSampRate : Int
  GetNewFrameLen : Int

/-- The `RTC_CHECK` that ended a call. -/
inductive FailedCheck where
  -- RTC_CHECK(config.IsOk())
  | ConfigIsOk
  -- RTC_CHECK_EQ(0, T::f(...)), with the status that was returned
  | EngineStatus (call : EngineCall) (status : Int)
  -- RTC_CHECK_GE(r, 0) << "Encode failed (error code " << T::GetErrorCode(..)
  | EncodeFailed (r : Int) (error_code : Int)
  -- RTC_CHECK_LE(static_cast<size_t>(r), max_encoded_bytes)
  | EncodeOverrun (r : Nat) (max_encoded_bytes : Nat)
  -- RTC_CHECK(sample_rate_hz == 16000 || sample_rate_hz == 32000)
  | UnsupportedSampleRate (sample_rate_hz : Int)
  -- RTC_CHECK_EQ(num_samples_per_channel, SampleRateHz() / 100)
  | NumSamplesPerChannel (num_samples_per_channel : Nat) (expected : Nat)
  -- RTC_CHECK_LE(info.encoded_bytes, max_encoded_bytes)
  | EncodedBytes (encoded_bytes : Nat) (max_encoded_bytes : Nat)
  deriving DecidableEq, Repr

/-- A fatal failure: the check that failed and the object at that moment. -/
structure Abort (σ : Type) where
  check : FailedCheck
  state : σ

/-- Conversion of an `int` to `size_t` (64 bits), as `static_cast<size_t>` on a
value that may be negative. -/
def static_cast_size_t (x : Int) : Nat := (x % 2 ^ 64).toNat

/-! ## The capability contract (`audio_encoder.cc`) -/

/-- Modelled from the spec: the struct `AudioEncoder::EncodedInfo` (declared in
`audio_encoder.h`, not among the sources), the Encoded Unit, with the three
members this code assigns. A default-constructed value is the zero-length unit;
its further members (redundancy flags) are never assigned by this code. -/
structure EncodedInfo where
  encoded_bytes : Nat := 0
  encoded_timestamp : Nat := 0
  payload_type : Int := 0
  deriving DecidableEq, Repr

/-- The virtual members of `AudioEncoder` that `AudioEncoder::Encode` calls,
over objects of type `σ`. -/
structure AudioEncoder (σ : Type) where
  SampleRateHz : σ → Int
  EncodeInternal : σ → Nat → List Int → Nat → Except (Abort σ) (σ × EncodedInfo)

/-- The method `AudioEncoder::Encode`. -/
def AudioEncoder.Encode {σ : Type} (enc : AudioEncoder σ) (s : σ) (rtp_timestamp : Nat)
    (audio : List Int) (num_samples_per_channel : Nat) (max_encoded_bytes : Nat) :
    Except (Abort σ) (σ × EncodedInfo) :=
  let expected := static_cast_size_t (Int.tdiv (enc.SampleRateHz s) 100)
  if num_samples_per_channel ≠ expected then
    .error ⟨.NumSamplesPerChannel num_samples_per_channel expected, s⟩
  else
    match enc.EncodeInternal s rtp_timestamp audio max_encoded_bytes with
    | .error e => .error e
    | .ok (s1, info) =>
      if info.encoded_bytes > max_encoded_bytes then
        .error ⟨.EncodedBytes info.encoded_bytes max_encoded_bytes, s1⟩
      else .ok (s1, info)

/-- The method `AudioEncoder::SetFec`. -/
def AudioEncoder.SetFec (enable : Bool) : Bool := !enable

/-- The method `AudioEncoder::SetDtx`. -/
def AudioEncoder.SetDtx (enable : Bool) : Bool := !enable

/-- The method `AudioEncoder::SetApplication`, for any type of application
modes. -/
def AudioEncoder.SetApplication {Application : Type} (_application : Application) : Bool :=
  false

/-! ## The encoder adapter `AudioEncoderIsacT<T>` -/

/-- The data members of `AudioEncoderIsacT<T>`. `isac_state_` records whether
the instance pointer is non-null; `calls` is the ghost list of the `T::` calls
issued so far. The two timestamps have no member initialiser. -/
structure AudioEncoderIsacT where
  config_ : Config := {}
  isac_state_ : Bool := false
  bwinfo_ : Option Nat := none
  packet_in_progress_ : Bool := false
  packet_timestamp_ : Nat
  last_encoded_timestamp_ : Nat
  calls : List EngineCall := []
  deriving DecidableEq, Repr

namespace AudioEncoderIsacT

/-- The statement `RTC_CHECK_EQ(0, T::f(isac_state_, ...))`: the call is
issued, and a nonzero status is fatal. -/
def RTC_CHECK_EQ_0 (T : IsacT) (s : AudioEncoderIsacT) (call : EngineCall) :
    Except (Abort AudioEncoderIsacT) AudioEncoderIsacT :=
  let s := { s with calls := s.calls ++ [call] }
  if T.ret call = 0 then .ok s else .error ⟨.EngineStatus call (T.ret call), s⟩

/-- The method `MaxEncodedBytes` (`kSufficientEncodeBufferSizeBytes`). -/
def MaxEncodedBytes (_s : AudioEncoderIsacT) : Nat := 400

/-- The method `SampleRateHz`: the engine's `EncSampRate`. -/
def SampleRateHz (T : IsacT) (_s : AudioEncoderIsacT) : Int := T.EncSampRate

/-- The method `NumChannels`. -/
def NumChannels (_s : AudioEncoderIsacT) : Int := 1

/-- The method `Max10MsFramesInAPacket`. -/
def Max10MsFramesInAPacket (_s : AudioEncoderIsacT) : Nat := 6

/-- The method `GetTargetBitrate`. -/
def GetTargetBitrate (s : AudioEncoderIsacT) : Int :=
  if s.config_.adaptive_mode then -1
  else if s.config_.bit_rate == 0 then kDefaultBitRate else s.config_.bit_rate

/-- The method `EncodeInternal`. `stores` is the Store memory at the time of
the call. Once `r >= 0` has been checked, the conversion of `r` to `size_t`
keeps its value (`Int.toNat`). -/
def EncodeInternal (T : IsacT) (stores : Stores) (s : AudioEncoderIsacT)
    (rtp_timestamp : Nat) (audio : List Int) (max_encoded_bytes : Nat) :
    Except (Abort AudioEncoderIsacT) (AudioEncoderIsacT × EncodedInfo) :=
  let s :=
    if !s.packet_in_progress_ then
      { s with packet_in_progress_ := true, packet_timestamp_ := rtp_timestamp }
    else s
  let s :=
    match s.bwinfo_ with
    | some p => { s with calls := s.calls ++ [EngineCall.SetBandwidthInfo (stores p).Get] }
    | none => s
  let r := T.ret (.Encode audio)
  let s := { s with calls := s.calls ++ [EngineCall.Encode audio] }
  if r < 0 then
    .error ⟨.EncodeFailed r (T.ret .GetErrorCode),
            { s with calls := s.calls ++ [EngineCall.GetErrorCode] }⟩
  else if r.toNat > max_encoded_bytes then
    .error ⟨.EncodeOverrun r.toNat max_encoded_bytes, s⟩
  else if r == 0 then
    .ok (s, {})
  else
    .ok ({ s with packet_in_progress_ := false },
         { encoded_bytes := r.toNat,
           encoded_timestamp := s.packet_timestamp_,
           payload_type := s.config_.payload_type })

/-- The method `RecreateEncoderInstance`. -/
def RecreateEncoderInstance (T : IsacT) (s : AudioEncoderIsacT) (config : Config) :
    Except (Abort AudioEncoderIsacT) AudioEncoderIsacT := do
  if !config.IsOk T.has_swb then throw ⟨.ConfigIsOk, s⟩
  let s := { s with packet_in_progress_ := false }
  let s := { s with bwinfo_ := config.bwinfo }
  let s ← if s.isac_state_ then RTC_CHECK_EQ_0 T s .Free else pure s
  let s ← RTC_CHECK_EQ_0 T s .Create
  let s := { s with isac_state_ := true }
  let s ← RTC_CHECK_EQ_0 T s (.EncoderInit (if config.adaptive_mode then 0 else 1))
  let s ← RTC_CHECK_EQ_0 T s (.SetEncSampRate config.sample_rate_hz)
  let bit_rate := if config.bit_rate == 0 then kDefaultBitRate else config.bit_rate
  let s ←
    if config.adaptive_mode then
      RTC_CHECK_EQ_0 T s (.ControlBwe bit_rate config.frame_size_ms config.enforce_frame_size)
    else
      RTC_CHECK_EQ_0 T s (.Control bit_rate config.frame_size_ms)
  let s ←
    if config.max_payload_size_bytes != -1 then
      RTC_CHECK_EQ_0 T s (.SetMaxPayloadSize config.max_payload_size_bytes)
    else pure s
  let s ←
    if config.max_bit_rate != -1 then
      RTC_CHECK_EQ_0 T s (.SetMaxRate config.max_bit_rate)
    else pure s
  let decoder_sample_rate_hz := min config.sample_rate_hz 32000
  let s ← RTC_CHECK_EQ_0 T s (.SetDecSampRate decoder_sample_rate_hz)
  pure { s with config_ := config }

/-- The constructor `AudioEncoderIsacT(const Config&)`: the members take their
initialisers (the two timestamps are indeterminate), then
`RecreateEncoderInstance(config)` runs. -/
def create (T : IsacT) (packet_timestamp_ last_encoded_timestamp_ : Nat) (config : Config) :
    Except (Abort AudioEncoderIsacT) AudioEncoderIsacT :=
  RecreateEncoderInstance T
    { packet_timestamp_ := packet_timestamp_,
      last_encoded_timestamp_ := last_encoded_timestamp_ } config

/-- The method `Reset`. -/
def Reset (T : IsacT) (s : AudioEncoderIsacT) :
    Except (Abort AudioEncoderIsacT) AudioEncoderIsacT :=
  RecreateEncoderInstance T s s.config_

/-- The encoder adapter seen through the `AudioEncoder` interface, for one
call: the overrides of `SampleRateHz` and `EncodeInternal`. -/
def asAudioEncoder (T : IsacT) (stores : Stores) : AudioEncoder AudioEncoderIsacT where
  SampleRateHz := SampleRateHz T
  EncodeInternal := EncodeInternal T stores

end AudioEncoderIsacT

/-! ## The decoder adapter `AudioDecoderIsacT<T>` -/

/-- The data members of `AudioDecoderIsacT<T>`, with the ghost list `calls` of
the `T::` calls issued so far. -/
structure AudioDecoderIsacT where
  isac_state_ : Bool
  bwinfo_ : Option Nat
  decoder_sample_rate_hz_ : Int
  calls : List EngineCall := []
  deriving DecidableEq, Repr

namespace AudioDecoderIsacT

/-- The statement `RTC_CHECK_EQ(0, T::f(isac_state_, ...))` in the decoder. -/
def RTC_CHECK_EQ_0 (T : IsacT) (s : AudioDecoderIsacT) (call : EngineCall) :
    Except (Abort AudioDecoderIsacT) AudioDecoderIsacT :=
  let s := { s with calls := s.calls ++ [call] }
  if T.ret call = 0 then .ok s else .error ⟨.EngineStatus call (T.ret call), s⟩

/-- The constructor `AudioDecoderIsacT(LockedIsacBandwidthInfo*)`; the default
constructor passes `nullptr`. -/
def create (T : IsacT) (stores : Stores) (bwinfo : Option Nat) :
    Except (Abort AudioDecoderIsacT) (AudioDecoderIsacT × Stores) := do
  let s : AudioDecoderIsacT :=
    { isac_state_ := false, bwinfo_ := bwinfo, decoder_sample_rate_hz_ := -1 }
  let s ← RTC_CHECK_EQ_0 T s .Create
  let s := { s with isac_state_ := true }
  let s := { s with calls := s.calls ++ [EngineCall.DecoderInit] }
  match s.bwinfo_ with
  | some p =>
    let bi := T.GetBandwidthInfo
    let s := { s with calls := s.calls ++ [EngineCall.GetBandwidthInfo] }
    pure (s, Function.update stores p ((stores p).Set bi))
  | none => pure (s, stores)

/-- The method `DecodeInternal`. The helper `ConvertSpeechType` of the base
class `AudioDecoder` and its result type are not among the sources and are
parameters. The result is the new object, the returned `int` and the value
stored through `speech_type`. -/
def DecodeInternal {SpeechType : Type} (ConvertSpeechType : Int → SpeechType) (T : IsacT)
    (s : AudioDecoderIsacT) (encoded : List Nat) (sample_rate_hz : Int) :
    Except (Abort AudioDecoderIsacT) (AudioDecoderIsacT × Int × SpeechType) := do
  let sample_rate_hz := if sample_rate_hz == 48000 then 32000 else sample_rate_hz
  if !(sample_rate_hz == 16000 || sample_rate_hz == 32000) then
    throw ⟨.UnsupportedSampleRate sample_rate_hz, s⟩
  let s ←
    if sample_rate_hz != s.decoder_sample_rate_hz_ then
      (RTC_CHECK_EQ_0 T s (.SetDecSampRate sample_rate_hz)).map
        fun s => { s with decoder_sample_rate_hz_ := sample_rate_hz }
    else pure s
  let temp_type : Int := 1
  let ret := T.ret (.DecodeInternal encoded)
  let temp_type := T.speech_type temp_type
  let s := { s with calls := s.calls ++ [EngineCall.DecodeInternal encoded] }
  pure (s, ret, ConvertSpeechType temp_type)

/-- The method `HasDecodePlc`. -/
def HasDecodePlc (_s : AudioDecoderIsacT) : Bool := false

/-- The method `DecodePlc`. -/
def DecodePlc (T : IsacT) (s : AudioDecoderIsacT) (num_frames : Nat) :
    AudioDecoderIsacT × Nat :=
  ({ s with calls := s.calls ++ [EngineCall.DecodePlc num_frames] },
   static_cast_size_t (T.ret (.DecodePlc num_frames)))

/-- The method `Reset`. -/
def Reset (s : AudioDecoderIsacT) : AudioDecoderIsacT :=
  { s with calls := s.calls ++ [EngineCall.DecoderInit] }

/-- The method `IncomingPacket`. -/
def IncomingPacket (T : IsacT) (stores : Stores) (s : AudioDecoderIsacT)
    (payload : List Nat) (rtp_sequence_number rtp_timestamp arrival_timestamp : Nat) :
    AudioDecoderIsacT × Stores × Int :=
  let call := EngineCall.UpdateBwEstimate payload rtp_sequence_number rtp_timestamp
    arrival_timestamp
  let ret := T.ret call
  let s := { s with calls := s.calls ++ [call] }
  match s.bwinfo_ with
  | some p =>
    let bwinfo := T.GetBandwidthInfo
    let s := { s with calls := s.calls ++ [EngineCall.GetBandwidthInfo] }
    (s, Function.update stores p ((stores p).Set bwinfo), ret)
  | none => (s, stores, ret)

/-- The method `ErrorCode`. -/
def ErrorCode (T : IsacT) (s : AudioDecoderIsacT) : AudioDecoderIsacT × Int :=
  ({ s with calls := s.calls ++ [EngineCall.GetErrorCode] }, T.ret .GetErrorCode)

/-- The method `Channels`. -/
def Channels (_s : AudioDecoderIsacT) : Nat := 1

end AudioDecoderIsacT

/-! ## Sequences of calls on one encoder -/

/-- One `EncodeInternal` call: its arguments, and the engine and the Store
memory as they are during that call. -/
structure EncodeCall where
  T : IsacT
  stores : Stores
  rtp_timestamp : Nat
  audio : List Int
  max_encoded_bytes : Nat

/-- The value `T::Encode` returns in the call. -/
def EncodeCall.r (c : EncodeCall) : Int := c.T.ret (.Encode c.audio)

/-- The calls of the list issued one after the other on the same encoder; the
results are collected, and a fatal failure ends the run. -/
def encodeAll (s : AudioEncoderIsacT) :
    List EncodeCall → Except (Abort AudioEncoderIsacT) (AudioEncoderIsacT × List EncodedInfo)
  | [] => .ok (s, [])
  | c :: cs =>
    match s.EncodeInternal c.T c.stores c.rtp_timestamp c.audio c.max_encoded_bytes with
    | .error e => .error e
    | .ok (s1, info) =>
      match encodeAll s1 cs with
      | .error e => .error e
      | .ok (s2, infos) => .ok (s2, info :: infos)

/-- An operation a caller performs on a constructed encoder. -/
inductive EncoderOp where
  | Encode (c : EncodeCall)
  | Reset (T : IsacT)

/-- One operation applied to the encoder. -/
def EncoderOp.apply (s : AudioEncoderIsacT) :
    EncoderOp → Except (Abort AudioEncoderIsacT) AudioEncoderIsacT
  | .Encode c =>
    (s.EncodeInternal c.T c.stores c.rtp_timestamp c.audio c.max_encoded_bytes).map Prod.fst
  | .Reset T => s.Reset T

/-- The operations of the list applied in order, starting from `s`. -/
def applyOps (s : AudioEncoderIsacT) :
    List EncoderOp → Except (Abort AudioEncoderIsacT) AudioEncoderIsacT
  | [] => .ok s
  | op :: ops =>
    match op.apply s with
    | .error e => .error e
    | .ok s1 => applyOps s1 ops

/-- Whether input has been accepted since the last emission or
(re)configuration, read off the history of operations alone: an `Encode` in
which the engine returned 0 accepts input and emits nothing; an `Encode` with a
positive return emits; a `Reset` reconfigures. `start` is the value before the
first operation. -/
def inputPending (start : Bool) : List EncoderOp → Bool
  | [] => start
  | .Encode c :: ops => inputPending (c.r == 0) ops
  | .Reset _ :: ops => inputPending false ops

/-! ## Concrete inputs used by the witnesses -/

/-- An engine observation: `Encode` returns `r`, every other call returns 0,
and there is no super-wideband support. -/
def engineReturning (r : Int) : IsacT where
  has_swb := false
  ret := fun call =>
    match call with
    | .Encode _ => r
    | _ => 0
  GetBandwidthInfo := { blob := [] }
  speech_type := fun t => t
  EncSampRate := 16000
  GetNewFrameLen := 480

/-- A Store memory in which every Store holds the empty blob. -/
def emptyStores : Stores := fun _ => { bwinfo_ := { blob := [] } }

/-- A 10 ms input of 160 samples at the given timestamp, with a 400-byte output
buffer, during which the engine returns `r`. -/
def tenMsCall (rtp_timestamp : Nat) (r : Int) : EncodeCall where
  T := engineReturning r
  stores := emptyStores
  rtp_timestamp := rtp_timestamp
  audio := List.replicate 160 0
  max_encoded_bytes := 400

/-- An encoder at rest with the default configuration. -/
def idleEncoder : AudioEncoderIsacT where
  isac_state_ := true
  packet_timestamp_ := 7
  last_encoded_timestamp_ := 0

/-- An engine observation: `DecodeInternal` returns `ret`, every other call
returns 0. -/
def engineDecoding (ret : Int) : IsacT where
  has_swb := false
  ret := fun call =>
    match call with
    | .DecodeInternal _ => ret
    | _ => 0
  GetBandwidthInfo := { blob := [] }
  speech_type := fun t => t
  EncSampRate := 16000
  GetNewFrameLen := 480

/-- A decoder right after construction without a Store. -/
def freshDecoder : AudioDecoderIsacT where
  isac_state_ := true
  bwinfo_ := none
  decoder_sample_rate_hz_ := -1
  calls := [.Create, .DecoderInit]

/-! ## The calls of a (re)configuration -/

/-- The engine calls of a run of `RecreateEncoderInstance` that returns, in the
order of the source. -/
def AudioEncoderIsacT.recreateCalls (was_allocated : Bool) (config : Config) : List EngineCall :=
  (if was_allocated then [EngineCall.Free] else []) ++
  [EngineCall.Create,
   EngineCall.EncoderInit (if config.adaptive_mode then 0 else 1),
   EngineCall.SetEncSampRate config.sample_rate_hz,
   if config.adaptive_mode then
     EngineCall.ControlBwe (if config.bit_rate == 0 then kDefaultBitRate else config.bit_rate)
       config.frame_size_ms config.enforce_frame_size
   else
     EngineCall.Control (if config.bit_rate == 0 then kDefaultBitRate else config.bit_rate)
       config.frame_size_ms] ++
  (if config.max_payload_size_bytes != -1 then
     [EngineCall.SetMaxPayloadSize config.max_payload_size_bytes] else []) ++
  (if config.max_bit_rate != -1 then [EngineCall.SetMaxRate config.max_bit_rate] else []) ++
  [EngineCall.SetDecSampRate (min config.sample_rate_hz 32000)]

/-! ## Observing calls, and sequences of calls on one decoder -/

/-- The object as a call leaves it, whether the call returned or ended in a
fatal check. -/
def objectAfter {σ α : Type} : Except (Abort σ) (σ × α) → σ
  | .ok (s, _) => s
  | .error a => a.state

/-- The rate `DecodeInternal` works with after its substitution of 32000 for
48000 (the first statement of the method). -/
def effectiveRate (sample_rate_hz : Int) : Int :=
  if sample_rate_hz == 48000 then 32000 else sample_rate_hz

/-- Whether an engine call is a `SetDecSampRate`. -/
def EngineCall.isSetDecSampRate : EngineCall → Bool
  | .SetDecSampRate _ => true
  | _ => false

/-- Whether an engine call is an `EncoderInit`. -/
def EngineCall.isEncoderInit : EngineCall → Bool
  | .EncoderInit _ => true
  | _ => false

/-- Whether an engine call is a `Control`. -/
def EngineCall.isControl : EngineCall → Bool
  | .Control _ _ => true
  | _ => false

/-- Whether an engine call is a `ControlBwe`. -/
def EngineCall.isControlBwe : EngineCall → Bool
  | .ControlBwe _ _ _ => true
  | _ => false

/-- One `DecodeInternal` call: its arguments and the engine as it is during
that call. -/
structure DecodeCall where
  T : IsacT
  encoded : List Nat
  sample_rate_hz : Int

/-- The decode calls of the list issued one after the other on the same
decoder; a fatal failure ends the run. -/
def decodeAll {SpeechType : Type} (ConvertSpeechType : Int → SpeechType)
    (s : AudioDecoderIsacT) :
    List DecodeCall →
      Except (Abort AudioDecoderIsacT) (AudioDecoderIsacT × List (Int × SpeechType))
  | [] => .ok (s, [])
  | c :: cs =>
    match s.DecodeInternal ConvertSpeechType c.T c.encoded c.sample_rate_hz with
    | .error e => .error e
    | .ok (s1, res) =>
      match decodeAll ConvertSpeechType s1 cs with
      | .error e => .error e
      | .ok (s2, ress) => .ok (s2, res :: ress)

/-- An operation a caller performs on a constructed decoder. -/
inductive DecoderOp where
  | DecodeInternal (T : IsacT) (encoded : List Nat) (sample_rate_hz : Int)
  | DecodePlc (T : IsacT) (num_frames : Nat)
  | Reset
  | ErrorCode (T : IsacT)
  | Channels
  | IncomingPacket (T : IsacT) (payload : List Nat)
      (rtp_sequence_number rtp_timestamp arrival_timestamp : Nat)

/-- Whether the operation is `IncomingPacket`. -/
def DecoderOp.isIncomingPacket : DecoderOp → Bool
  | .IncomingPacket _ _ _ _ _ => true
  | _ => false

/-- One operation applied to the decoder and the Store memory: the decoder and
the memory afterwards. Only `IncomingPacket` is handed the memory. -/
def DecoderOp.apply {SpeechType : Type} (ConvertSpeechType : Int → SpeechType)
    (stores : Stores) (s : AudioDecoderIsacT) :
    DecoderOp → Except (Abort AudioDecoderIsacT) (AudioDecoderIsacT × Stores)
  | .DecodeInternal T encoded sample_rate_hz =>
    (s.DecodeInternal ConvertSpeechType T encoded sample_rate_hz).map
      fun res => (res.1, stores)
  | .DecodePlc T num_frames => .ok ((s.DecodePlc T num_frames).1, stores)
  | .Reset => .ok (s.Reset, stores)
  | .ErrorCode T => .ok ((s.ErrorCode T).1, stores)
  | .Channels => .ok (s, stores)
  | .IncomingPacket T payload rtp_sequence_number rtp_timestamp arrival_timestamp =>
    let res := s.IncomingPacket T stores payload rtp_sequence_number rtp_timestamp
      arrival_timestamp
    .ok (res.1, res.2.1)

/-! ## The buffer pool `Vp9FrameBufferPool` -/

/-- Modelled from the spec: the class `Vp9FrameBuffer`, of which only the
declaration (`vp9_frame_buffer_pool.h`) is among the sources: a
reference-counted growable byte buffer. `data_size` is the size of `data_`;
`ref_count` counts the references, the pool's own one included. -/
structure Vp9FrameBuffer where
  data_size : Nat
  ref_count : Nat
  deriving DecidableEq, Repr

namespace Vp9FrameBuffer

/-- Modelled from the spec: `GetDataSize`, the size of the buffer. -/
def GetDataSize (b : Vp9FrameBuffer) : Nat := b.data_size

/-- Modelled from the spec: `SetSize`, which resizes the growable buffer. -/
def SetSize (b : Vp9FrameBuffer) (size : Nat) : Vp9FrameBuffer :=
  { b with data_size := size }

/-- Modelled from the spec: `HasOneRef`, true when the reference count has
dropped to the pool's own one, so that no external holder retains the entry. -/
def HasOneRef (b : Vp9FrameBuffer) : Bool := b.ref_count == 1

/-- Modelled from the spec: handing out one more reference to the entry. -/
def AddRef (b : Vp9FrameBuffer) : Vp9FrameBuffer :=
  { b with ref_count := b.ref_count + 1 }

end Vp9FrameBuffer

/-- Modelled from the spec: the class `Vp9FrameBufferPool`, of which only the
declaration is among the sources: the list `allocated_buffers_` of all
entries, in use or ready to be recycled. The lock is not represented. -/
structure Vp9FrameBufferPool where
  allocated_buffers_ : List Vp9FrameBuffer
  deriving DecidableEq, Repr

namespace Vp9FrameBufferPool

/-- Modelled from the spec: the search through the entries for the first one
that satisfies `p`; that entry is replaced by `f` of it, and the new list and
the position of the entry are returned. -/
def recycle (p : Vp9FrameBuffer → Bool) (f : Vp9FrameBuffer → Vp9FrameBuffer) :
    List Vp9FrameBuffer → Option (List Vp9FrameBuffer × Nat)
  | [] => none
  | b :: bs =>
    if p b then some (f b :: bs, 0)
    else
      match recycle p f bs with
      | some (bs1, i) => some (b :: bs1, i + 1)
      | none => none

/-- Modelled from the spec: `GetFrameBuffer(min_size)`, whose definition
(`vp9_frame_buffer_pool.cc`) is not among the sources. In the words of the
specification it "returns a reference-counted entry from the free set if one is
≥ minSize, else grows an existing free entry or allocates a new one". The
result is the pool afterwards and the position in `allocated_buffers_` of the
entry handed out, on which one more reference is held. Where the specification
leaves the choice among several free entries open, the first one is taken. -/
def GetFrameBuffer (pool : Vp9FrameBufferPool) (min_size : Nat) : Vp9FrameBufferPool × Nat :=
  match recycle (fun b => b.HasOneRef && decide (min_size ≤ b.GetDataSize))
      (fun b => b.AddRef) pool.allocated_buffers_ with
  | some (bs, i) => ({ allocated_buffers_ := bs }, i)
  | none =>
    match recycle (fun b => b.HasOneRef) (fun b => (b.SetSize min_size).AddRef)
        pool.allocated_buffers_ with
    | some (bs, i) => ({ allocated_buffers_ := bs }, i)
    | none =>
      ({ allocated_buffers_ :=
           pool.allocated_buffers_ ++ [{ data_size := min_size, ref_count := 2 }] },
       pool.allocated_buffers_.length)

/-- Modelled from the spec: `GetNumBuffersInUse`, the number of entries an
external holder references. -/
def GetNumBuffersInUse (pool : Vp9FrameBufferPool) : Nat :=
  pool.allocated_buffers_.countP fun b => !b.HasOneRef

end Vp9FrameBufferPool

/-! ## Further concrete inputs used by the witnesses -/

/-- An engine observation in which every call returns 0 and `GetBandwidthInfo`
writes the given blob. -/
def engineReporting (blob : List Int) : IsacT where
  has_swb := true
  ret := fun _ => 0
  GetBandwidthInfo := { blob := blob }
  speech_type := fun t => t
  EncSampRate := 16000
  GetNewFrameLen := 480

/-- A valid adaptive configuration with the Store at address 0 attached. -/
def adaptiveConfig : Config :=
  { bwinfo := some 0, adaptive_mode := true }

/-- A Store memory in which every Store holds the blob `[v]`. -/
def storesHolding (v : Int) : Stores := fun _ => { bwinfo_ := { blob := [v] } }

/-- A pool with one entry in use (64 bytes) and two free entries (16 and 32
bytes). -/
def smallPool : Vp9FrameBufferPool :=
  { allocated_buffers_ :=
      [{ data_size := 64, ref_count := 2 }, { data_size := 16, ref_count := 1 },
       { data_size := 32, ref_count := 1 }] }

/-! ## The H.264 encoder `H264EncoderImpl` (`h264_encoder_impl.cc`)

The x264 library is an external collaborator: what its functions return during
one call of an encoder method is given by an `X264` value, and every x264 call
issued is appended to the ghost field `calls` of the encoder. The images handed
to the registered callback are appended to the ghost field `delivered`. -/

/-- The return codes `WEBRTC_VIDEO_CODEC_*` (`video_error_codes.h`) and the
helper `CalcBufferSize(kI420, width, height)` (libyuv), none of which is among
the sources: they are parameters of the embedding. -/
structure VideoCodecExternals where
  WEBRTC_VIDEO_CODEC_OK : Int
  WEBRTC_VIDEO_CODEC_ERROR : Int
  WEBRTC_VIDEO_CODEC_ERR_PARAMETER : Int
  WEBRTC_VIDEO_CODEC_UNINITIALIZED : Int
  CalcBufferSize : Int → Int → Nat

/-- The members of the struct `VideoCodec` (declared in `common_types.h`, not
among the sources) that this file reads or writes, as integers. -/
structure VideoCodec where
  width : Int
  height : Int
  startBitrate : Int
  maxBitrate : Int
  maxFramerate : Int
  targetBitrate : Int
  deriving DecidableEq, Repr

/-- The frame types this file names (the enum is declared elsewhere). -/
inductive VideoFrameType where
  | kKeyFrame
  | kDeltaFrame
  deriving DecidableEq, Repr

/-- The members of `VideoFrame` that `Encode` reads itself; the three planes
are only handed on to x264. -/
structure VideoFrame where
  IsZeroSize : Bool
  timestamp : Nat
  render_time_ms : Int
  deriving DecidableEq, Repr

/-- A NAL unit as x264 returns it: its type and its payload bytes, start code
included. -/
structure x264_nal_t where
  i_type : Int
  p_payload : List Nat
  deriving DecidableEq, Repr

/-- The member `i_payload`: the size of the payload in bytes. -/
def x264_nal_t.i_payload (nal : x264_nal_t) : Nat := nal.p_payload.length

/-- The arrays of `RTPFragmentationHeader` (declared in
`module_common_types.h`, not among the sources). A default-constructed header
has no fragments. -/
structure RTPFragmentationHeader where
  fragmentationVectorSize : Nat := 0
  fragmentationOffset : List Nat := []
  fragmentationLength : List Nat := []
  fragmentationTimeDiff : List Int := []
  fragmentationPlType : List Int := []
  deriving DecidableEq, Repr

/-- The method `VerifyAndAllocateFragmentationHeader` on a default-constructed
header: arrays for `size` fragments. -/
def RTPFragmentationHeader.VerifyAndAllocateFragmentationHeader
    (_frag : RTPFragmentationHeader) (size : Nat) : RTPFragmentationHeader :=
  { fragmentationVectorSize := size,
    fragmentationOffset := List.replicate size 0,
    fragmentationLength := List.replicate size 0,
    fragmentationTimeDiff := List.replicate size 0,
    fragmentationPlType := List.replicate size 0 }

/-- The members of `EncodedImage` this file uses. `_buffer` is `none` for a
null pointer and otherwise the bytes of the allocation. -/
structure EncodedImage where
  _buffer : Option (List Nat) := none
  _size : Nat := 0
  _length : Nat := 0
  _completeFrame : Bool := false
  _timeStamp : Nat := 0
  capture_time_ms_ : Int := 0
  _encodedHeight : Int := 0
  _encodedWidth : Int := 0
  _frameType : VideoFrameType := .kDeltaFrame
  deriving DecidableEq, Repr

/-- The x264 library as the encoder observes it during one call of a method:
the status of `x264_param_default_preset`, `x264_param_apply_profile` and
`x264_picture_alloc`, the handle `x264_encoder_open` returns (`none` is NULL),
and the frame size and NAL array `x264_encoder_encode` returns (`n_nal` is the
length of the array). -/
structure X264 where
  x264_param_default_preset : Int
  x264_param_apply_profile : Int
  x264_picture_alloc : Int
  x264_encoder_open : Option Nat
  x264_encoder_encode : Int × List x264_nal_t

/-- The x264 calls the encoder can issue, with the arguments it chooses. -/
inductive X264Call where
  | x264_param_default
  | x264_param_default_preset
  | x264_param_apply_profile
  | x264_picture_alloc (i_width : Int) (i_height : Int)
  | x264_encoder_open (i_width : Int) (i_height : Int) (i_bitrate : Int)
  | x264_encoder_close (encoder : Option Nat)
  | x264_picture_clean
  | x264_encoder_encode (encoder : Option Nat) (i_pts : Int)
  deriving DecidableEq, Repr

/-- An access to memory that C++ leaves undefined. -/
inductive Fault where
  | NullDestination
  | BufferOverrun
  deriving DecidableEq, Repr

/-- The call `memcpy(dest + offset, src, n)` with `n` the length of `src`, on a
destination allocation `dest`. -/
def memcpy (dest : Option (List Nat)) (offset : Nat) (src : List Nat) :
    Except Fault (List Nat) :=
  match dest with
  | none => .error .NullDestination
  | some buffer =>
    if offset + src.length > buffer.length then .error .BufferOverrun
    else .ok (buffer.take offset ++ src ++ buffer.drop (offset + src.length))

/-- The data members of `H264EncoderImpl` (the class is declared in
`h264_encoder_impl.h`, not among the sources; these are the members the methods
use), with the ghost lists `calls` and `delivered`. -/
structure H264EncoderImpl where
  encoder_ : Option Nat
  encoded_image_callback_ : Option Nat
  inited_ : Bool
  codec_settings_ : VideoCodec
  encoded_image_ : EncodedImage
  encoded_image_buffer_ : Option (List Nat)
  pic_i_pts : Int
  i_frame : Int
  calls : List X264Call := []
  delivered : List (EncodedImage × RTPFragmentationHeader) := []
  deriving DecidableEq, Repr

namespace H264EncoderImpl

/-- The constructor: `encoder_(nullptr)`, `encoded_image_callback_(nullptr)`,
`inited_(false)`; the members without initialiser are arguments, and
`encoded_image_` is default-constructed. -/
def create (codec_settings_ : VideoCodec) (pic_i_pts i_frame : Int) : H264EncoderImpl where
  encoder_ := none
  encoded_image_callback_ := none
  inited_ := false
  codec_settings_ := codec_settings_
  encoded_image_ := {}
  encoded_image_buffer_ := none
  pic_i_pts := pic_i_pts
  i_frame := i_frame

/-- The method `Release`. -/
def Release (ext : VideoCodecExternals) (s : H264EncoderImpl) : H264EncoderImpl × Int :=
  let s := if s.encoder_.isSome then { s with encoder_ := none } else s
  let s :=
    if s.encoded_image_._buffer.isSome then
      { s with encoded_image_ := { s.encoded_image_ with _buffer := none },
               encoded_image_buffer_ := none }
    else s
  (s, ext.WEBRTC_VIDEO_CODEC_OK)

/-- The three identical failure branches of `InitEncode`:
`x264_encoder_close(encoder_); encoder_ = NULL; return WEBRTC_VIDEO_CODEC_ERROR`. -/
def InitEncode.fail (ext : VideoCodecExternals) (s : H264EncoderImpl) :
    H264EncoderImpl × Int :=
  let s := { s with calls := s.calls ++ [X264Call.x264_encoder_close s.encoder_] }
  ({ s with encoder_ := none }, ext.WEBRTC_VIDEO_CODEC_ERROR)

/-- The method `InitEncode`; `inst` is `none` for a null pointer, and the
unused `max_payload_size` is left out. -/
def InitEncode (ext : VideoCodecExternals) (x264 : X264) (s : H264EncoderImpl)
    (inst : Option VideoCodec) (number_of_cores : Int) : H264EncoderImpl × Int :=
  match inst with
  | none => (s, ext.WEBRTC_VIDEO_CODEC_ERR_PARAMETER)
  | some inst =>
    if inst.maxFramerate < 1 then (s, ext.WEBRTC_VIDEO_CODEC_ERR_PARAMETER)
    else if inst.maxBitrate > 0 && inst.startBitrate > inst.maxBitrate then
      (s, ext.WEBRTC_VIDEO_CODEC_ERR_PARAMETER)
    else if inst.width < 1 || inst.height < 1 then (s, ext.WEBRTC_VIDEO_CODEC_ERR_PARAMETER)
    else if number_of_cores < 1 then (s, ext.WEBRTC_VIDEO_CODEC_ERR_PARAMETER)
    else
      let (s, ret_val) := Release ext s
      if ret_val < 0 then (s, ret_val)
      else
        let s := { s with codec_settings_ := inst }
        let s := { s with calls := s.calls ++
          [X264Call.x264_param_default, X264Call.x264_param_default_preset] }
        let ret_val := x264.x264_param_default_preset
        if ret_val != 0 then InitEncode.fail ext s
        else
          let s := { s with calls := s.calls ++ [X264Call.x264_param_apply_profile] }
          let ret_val := x264.x264_param_apply_profile
          if ret_val != 0 then InitEncode.fail ext s
          else
            let s := { s with calls := s.calls ++
              [X264Call.x264_picture_alloc inst.width inst.height] }
            let ret_val := x264.x264_picture_alloc
            if ret_val != 0 then InitEncode.fail ext s
            else
              let s := { s with calls := s.calls ++
                [X264Call.x264_encoder_open inst.width inst.height
                  s.codec_settings_.maxBitrate] }
              let s := { s with encoder_ := x264.x264_encoder_open }
              if !s.encoder_.isSome then
                let s := { s with calls := s.calls ++
                  [X264Call.x264_encoder_close s.encoder_, X264Call.x264_picture_clean] }
                ({ s with encoder_ := none }, ext.WEBRTC_VIDEO_CODEC_ERROR)
              else
                let size := ext.CalcBufferSize s.codec_settings_.width s.codec_settings_.height
                let s := { s with encoded_image_ :=
                  { s.encoded_image_ with _size := size,
                                          _buffer := some (List.replicate size 0),
                                          _completeFrame := true } }
                let s := { s with inited_ := true }
                (s, ext.WEBRTC_VIDEO_CODEC_OK)

/-- The method `RegisterEncodeCompleteCallback`. -/
def RegisterEncodeCompleteCallback (ext : VideoCodecExternals) (s : H264EncoderImpl)
    (callback : Option Nat) : H264EncoderImpl × Int :=
  ({ s with encoded_image_callback_ := callback }, ext.WEBRTC_VIDEO_CODEC_OK)

/-- The method `SetRates`; the arguments are unsigned. -/
def SetRates (ext : VideoCodecExternals) (s : H264EncoderImpl) (bitrate framerate : Nat) :
    H264EncoderImpl × Int :=
  if bitrate ≤ 0 || framerate ≤ 0 then (s, ext.WEBRTC_VIDEO_CODEC_ERR_PARAMETER)
  else
    ({ s with codec_settings_ :=
        { s.codec_settings_ with targetBitrate := bitrate, maxFramerate := framerate } },
     ext.WEBRTC_VIDEO_CODEC_OK)

/-- The loop of `Encode` over the NAL units, from index `totalNaluIndex` on:
each payload is copied behind the bytes already in the image buffer and the
entries of the fragmentation header at that index are assigned. -/
def Encode.copyNals :
    List x264_nal_t → Nat → EncodedImage → RTPFragmentationHeader →
      Except Fault (EncodedImage × RTPFragmentationHeader)
  | [], _, encoded_image_, frag_info => .ok (encoded_image_, frag_info)
  | nal :: rest, totalNaluIndex, encoded_image_, frag_info =>
    let currentNaluSize := nal.i_payload
    match memcpy encoded_image_._buffer encoded_image_._length nal.p_payload with
    | .error fault => .error fault
    | .ok buffer =>
      let encoded_image_ := { encoded_image_ with _buffer := some buffer }
      let encoded_image_ :=
        { encoded_image_ with _length := encoded_image_._length + currentNaluSize }
      let frag_info :=
        { frag_info with
          fragmentationOffset := frag_info.fragmentationOffset.set totalNaluIndex
            (encoded_image_._length - currentNaluSize),
          fragmentationLength := frag_info.fragmentationLength.set totalNaluIndex
            currentNaluSize,
          fragmentationPlType := frag_info.fragmentationPlType.set totalNaluIndex nal.i_type,
          fragmentationTimeDiff := frag_info.fragmentationTimeDiff.set totalNaluIndex 0 }
      Encode.copyNals rest (totalNaluIndex + 1) encoded_image_ frag_info

/-- The tail of `Encode` after the NAL loop: `i_frame++`, and the callback when
the image is not empty. -/
def Encode.finish (ext : VideoCodecExternals) (s : H264EncoderImpl)
    (input_image : VideoFrame) (frame_type : VideoFrameType)
    (frag_info : RTPFragmentationHeader) : H264EncoderImpl × Int :=
  let s := { s with i_frame := s.i_frame + 1 }
  if s.encoded_image_._length > 0 then
    let s := { s with encoded_image_ :=
      { s.encoded_image_ with _timeStamp := input_image.timestamp,
                              capture_time_ms_ := input_image.render_time_ms,
                              _encodedHeight := s.codec_settings_.height,
                              _encodedWidth := s.codec_settings_.width,
                              _frameType := frame_type } }
    ({ s with delivered := s.delivered ++ [(s.encoded_image_, frag_info)] },
     ext.WEBRTC_VIDEO_CODEC_OK)
  else (s, ext.WEBRTC_VIDEO_CODEC_OK)

/-- The method `Encode`; `frame_types` is `none` for a null pointer, and the
unused `codec_specific_info` is left out. The result is `Except.error` when a
`memcpy` of the NAL loop leaves the image buffer. -/
def Encode (ext : VideoCodecExternals) (x264 : X264) (s : H264EncoderImpl)
    (input_image : VideoFrame) (frame_types : Option (List VideoFrameType)) :
    Except Fault (H264EncoderImpl × Int) :=
  if !s.inited_ then .ok (s, ext.WEBRTC_VIDEO_CODEC_UNINITIALIZED)
  else if input_image.IsZeroSize then .ok (s, ext.WEBRTC_VIDEO_CODEC_ERR_PARAMETER)
  else if !s.encoded_image_callback_.isSome then
    .ok (s, ext.WEBRTC_VIDEO_CODEC_UNINITIALIZED)
  else
    let frame_type :=
      match frame_types with
      | some (first :: _) => first
      | _ => VideoFrameType.kDeltaFrame
    let s := { s with pic_i_pts := s.pic_i_pts + 1 }
    let s := { s with calls := s.calls ++
      [X264Call.x264_encoder_encode s.encoder_ s.pic_i_pts] }
    let i_frame_size := x264.x264_encoder_encode.1
    let nal_t_ := x264.x264_encoder_encode.2
    let n_nal := nal_t_.length
    if i_frame_size < 0 then
      let s := { s with calls := s.calls ++
        [X264Call.x264_encoder_close s.encoder_, X264Call.x264_picture_clean] }
      .ok ({ s with encoder_ := none }, ext.WEBRTC_VIDEO_CODEC_ERROR)
    else
      let frag_info : RTPFragmentationHeader := {}
      if i_frame_size != 0 then
        if n_nal == 0 then .ok (s, ext.WEBRTC_VIDEO_CODEC_OK)
        else
          let frag_info := frag_info.VerifyAndAllocateFragmentationHeader n_nal
          let s := { s with encoded_image_ := { s.encoded_image_ with _length := 0 } }
          match Encode.copyNals nal_t_ 0 s.encoded_image_ frag_info with
          | .error fault => .error fault
          | .ok (encoded_image_, frag_info) =>
            .ok (Encode.finish ext { s with encoded_image_ := encoded_image_ } input_image
              frame_type frag_info)
      else .ok (Encode.finish ext s input_image frame_type frag_info)

/-- The method `IsInitialized`. -/
def IsInitialized (s : H264EncoderImpl) : Bool := s.encoder_.isSome

end H264EncoderImpl

/-- The positions at which the payloads of the NAL units begin when they are
laid out back to back from position `start`. -/
def nalStarts (start : Nat) : List x264_nal_t → List Nat
  | [] => []
  | nal :: rest => start :: nalStarts (start + nal.i_payload) rest

/-- An operation a caller performs on a constructed H.264 encoder. -/
inductive H264Op where
  | InitEncode (x264 : X264) (inst : Option VideoCodec) (number_of_cores : Int)
  | Release
  | RegisterEncodeCompleteCallback (callback : Option Nat)
  | SetRates (bitrate framerate : Nat)
  | Encode (x264 : X264) (input_image : VideoFrame)
      (frame_types : Option (List VideoFrameType))

/-- One operation applied to the encoder: the encoder afterwards and the value
returned. -/
def H264Op.apply (ext : VideoCodecExternals) (s : H264EncoderImpl) :
    H264Op → Except Fault (H264EncoderImpl × Int)
  | .InitEncode x264 inst number_of_cores => .ok (s.InitEncode ext x264 inst number_of_cores)
  | .Release => .ok (s.Release ext)
  | .RegisterEncodeCompleteCallback callback =>
    .ok (s.RegisterEncodeCompleteCallback ext callback)
  | .SetRates bitrate framerate => .ok (s.SetRates ext bitrate framerate)
  | .Encode x264 input_image frame_types => s.Encode ext x264 input_image frame_types

/-- The operations of the list applied in order, starting from `s`; the values
returned are dropped. -/
def H264Op.applyAll (ext : VideoCodecExternals) (s : H264EncoderImpl) :
    List H264Op → Except Fault H264EncoderImpl
  | [] => .ok s
  | op :: ops =>
    match op.apply ext s with
    | .error fault => .error fault
    | .ok (s1, _) => H264Op.applyAll ext s1 ops

/-! ## Concrete inputs for the H.264 encoder -/

/-- The values the return codes have in upstream WebRTC, with an I420 buffer
size of `width * height * 3 / 2`. -/
def upstreamExternals : VideoCodecExternals where
  WEBRTC_VIDEO_CODEC_OK := 0
  WEBRTC_VIDEO_CODEC_ERROR := -1
  WEBRTC_VIDEO_CODEC_ERR_PARAMETER := -4
  WEBRTC_VIDEO_CODEC_UNINITIALIZED := -7
  CalcBufferSize := fun width height => (width * height * 3 / 2).toNat

/-- Settings for a 4 by 4 picture at 25 frames per second. -/
def tinySettings : VideoCodec :=
  { width := 4, height := 4, startBitrate := 300, maxBitrate := 0, maxFramerate := 25,
    targetBitrate := 0 }

/-- An x264 observation in which every call succeeds, the encoder handle is 1,
and `x264_encoder_encode` returns the given frame size and NAL units. -/
def x264Returning (i_frame_size : Int) (nals : List x264_nal_t) : X264 where
  x264_param_default_preset := 0
  x264_param_apply_profile := 0
  x264_picture_alloc := 0
  x264_encoder_open := some 1
  x264_encoder_encode := (i_frame_size, nals)

/-- A non-empty input frame with timestamp 9000. -/
def someFrame : VideoFrame :=
  { IsZeroSize := false, timestamp := 9000, render_time_ms := 100 }

/-- Two NAL units with their four-byte start codes: a 5-byte unit of type 7 and
a 6-byte unit of type 5. -/
def twoNals : List x264_nal_t :=
  [{ i_type := 7, p_payload := [0, 0, 0, 1, 103] },
   { i_type := 5, p_payload := [0, 0, 0, 1, 101, 136] }]

/-- A freshly constructed H.264 encoder. -/
def freshH264 : H264EncoderImpl :=
  H264EncoderImpl.create tinySettings 0 0

/-- An H.264 encoder after a successful `InitEncode` with `tinySettings` (a
24-byte image buffer) and the registration of callback 5. -/
def readyH264 : H264EncoderImpl :=
  ((freshH264.InitEncode upstreamExternals (x264Returning 0 []) (some tinySettings) 1).1
    |>.RegisterEncodeCompleteCallback upstreamExternals (some 5)).1

/-! ## Theorems: configuration validation -/

/-- Characterisation of `IsOk` once the ceilings are unset and the adaptive
gate is passed; shared by the theorems below. -/
theorem Config.IsOk_eq_true_iff (has_swb : Bool) (c : Config)
    (hrate : c.max_bit_rate = -1) (hsize : c.max_payload_size_bytes = -1)
    (hstore : c.adaptive_mode = false ∨ c.bwinfo.isSome = true) :
    c.IsOk has_swb = true ↔
      (c.sample_rate_hz = 16000 ∧ (c.frame_size_ms = 30 ∨ c.frame_size_ms = 60) ∧
        (c.bit_rate = 0 ∨ (10000 ≤ c.bit_rate ∧ c.bit_rate ≤ 32000))) ∨
      ((c.sample_rate_hz = 32000 ∨ c.sample_rate_hz = 48000) ∧ has_swb = true ∧
        c.frame_size_ms = 30 ∧
        (c.bit_rate = 0 ∨ (10000 ≤ c.bit_rate ∧ c.bit_rate ≤ 56000))) := by
  have hgate : (c.adaptive_mode && !c.bwinfo.isSome) = false := by
    rcases hstore with h | h <;> simp [h]
  unfold Config.IsOk
  rw [hrate, hsize, hgate]
  by_cases h16 : c.sample_rate_hz = 16000
  · simp [h16]
  · by_cases h32 : c.sample_rate_hz = 32000
    · simp [h32]
    · by_cases h48 : c.sample_rate_hz = 48000
      · simp [h48]
      · simp [h16, h32, h48]

/-- C1 (as amended): with the ceilings unset and the adaptive gate passed,
`IsOk` accepts exactly the configurations whose bit rate is 0 (use the
default) or within the documented range of an allowed (sample rate, frame size)
pair. -/
theorem C1_IsOk_accepts_exactly (has_swb : Bool) (c : Config)
    (hrate : c.max_bit_rate = -1) (hsize : c.max_payload_size_bytes = -1)
    (hstore : c.adaptive_mode = false ∨ c.bwinfo.isSome = true) :
    c.IsOk has_swb = true ↔
      (c.sample_rate_hz = 16000 ∧ (c.frame_size_ms = 30 ∨ c.frame_size_ms = 60) ∧
        (c.bit_rate = 0 ∨ (10000 ≤ c.bit_rate ∧ c.bit_rate ≤ 32000))) ∨
      ((c.sample_rate_hz = 32000 ∨ c.sample_rate_hz = 48000) ∧ has_swb = true ∧
        c.frame_size_ms = 30 ∧
        (c.bit_rate = 0 ∨ (10000 ≤ c.bit_rate ∧ c.bit_rate ≤ 56000))) :=
  Config.IsOk_eq_true_iff has_swb c hrate hsize hstore

/-- Witness for C1 (as amended): the wide profile at 48000 Hz, 30 ms, 56000
bit/s on an engine with super-wideband support is accepted. -/
theorem C1_IsOk_accepts_exactly_witness :
    Config.IsOk true { sample_rate_hz := 48000, bit_rate := 56000 } = true :=
  (C1_IsOk_accepts_exactly true { sample_rate_hz := 48000, bit_rate := 56000 } rfl rfl
    (Or.inl rfl)).mpr (Or.inr ⟨Or.inr rfl, rfl, rfl, Or.inr ⟨by decide, by decide⟩⟩)

/-- C1 (as stated) fails: the configuration that differs from the default only
in `bit_rate = 0` has its ceilings unset and is non-adaptive, is accepted by
`IsOk`, and is none of the documented combinations. -/
theorem C1_counterexample_bit_rate_zero :
    ({ bit_rate := 0 } : Config).max_bit_rate = -1 ∧
    ({ bit_rate := 0 } : Config).max_payload_size_bytes = -1 ∧
    ({ bit_rate := 0 } : Config).adaptive_mode = false ∧
    Config.IsOk false { bit_rate := 0 } = true ∧
    ¬ documentedCombination false { bit_rate := 0 } := by
  refine ⟨rfl, rfl, rfl, by decide, ?_⟩
  unfold documentedCombination
  decide

/-- C2: an adaptive configuration with no Store attached is rejected, whatever
its other members are. -/
theorem C2_adaptive_without_store_rejected (has_swb : Bool) (c : Config)
    (hadaptive : c.adaptive_mode = true) (hnull : c.bwinfo = none) :
    c.IsOk has_swb = false := by
  unfold Config.IsOk
  simp [hadaptive, hnull]

/-- Witness for C2: the default configuration switched to adaptive mode. -/
theorem C2_adaptive_without_store_rejected_witness :
    Config.IsOk true { adaptive_mode := true } = false :=
  C2_adaptive_without_store_rejected true { adaptive_mode := true } rfl rfl

/-- C3: boundary values of the narrow profile. The default configuration is
accepted; bit rate 32001 is rejected, 10000 accepted, 9999 rejected; and at
16000 Hz every frame size other than 30 and 60 is rejected. -/
theorem C3_narrow_profile_boundaries (has_swb : Bool) :
    Config.IsOk has_swb
      { sample_rate_hz := 16000, frame_size_ms := 30, bit_rate := 32000,
        adaptive_mode := false, max_bit_rate := -1, max_payload_size_bytes := -1 } = true ∧
    Config.IsOk has_swb
      { sample_rate_hz := 16000, frame_size_ms := 30, bit_rate := 32001,
        adaptive_mode := false, max_bit_rate := -1, max_payload_size_bytes := -1 } = false ∧
    Config.IsOk has_swb
      { sample_rate_hz := 16000, frame_size_ms := 30, bit_rate := 10000,
        adaptive_mode := false, max_bit_rate := -1, max_payload_size_bytes := -1 } = true ∧
    Config.IsOk has_swb
      { sample_rate_hz := 16000, frame_size_ms := 30, bit_rate := 9999,
        adaptive_mode := false, max_bit_rate := -1, max_payload_size_bytes := -1 } = false ∧
    ∀ c : Config, c.sample_rate_hz = 16000 → c.frame_size_ms ≠ 30 → c.frame_size_ms ≠ 60 →
      c.IsOk has_swb = false := by
  refine ⟨by simp [Config.IsOk], by simp [Config.IsOk], by simp [Config.IsOk],
    by simp [Config.IsOk], ?_⟩
  intro c h16 h30 h60
  unfold Config.IsOk
  simp [h16, h30, h60]

/-- Witness for C3: a 20 ms frame at 16000 Hz is rejected. -/
theorem C3_narrow_profile_boundaries_witness :
    Config.IsOk false { sample_rate_hz := 16000, frame_size_ms := 20 } = false :=
  (C3_narrow_profile_boundaries false).2.2.2.2 { sample_rate_hz := 16000, frame_size_ms := 20 }
    rfl (by decide) (by decide)

/-- C4: at 32000 or 48000 Hz a configuration is rejected when the engine has no
super-wideband support, when the frame size is not 30 ms, and when the bit rate
exceeds 56000; and a sample rate other than 16000, 32000 and 48000 is
rejected. -/
theorem C4_wide_profile_rejections (has_swb : Bool) (c : Config) :
    ((c.sample_rate_hz = 32000 ∨ c.sample_rate_hz = 48000) →
      (has_swb = false → c.IsOk has_swb = false) ∧
      (c.frame_size_ms ≠ 30 → c.IsOk has_swb = false) ∧
      (56000 < c.bit_rate → c.IsOk has_swb = false)) ∧
    (c.sample_rate_hz ≠ 16000 → c.sample_rate_hz ≠ 32000 → c.sample_rate_hz ≠ 48000 →
      c.IsOk has_swb = false) := by
  refine ⟨?_, ?_⟩
  · intro hwide
    have h16 : c.sample_rate_hz ≠ 16000 := by rcases hwide with h | h <;> rw [h] <;> decide
    have hsel : (c.sample_rate_hz == 32000 || c.sample_rate_hz == 48000) = true := by
      rcases hwide with h | h <;> simp [h]
    refine ⟨?_, ?_, ?_⟩
    · intro hswb
      unfold Config.IsOk
      simp [h16, hsel, hswb]
    · intro hframe
      unfold Config.IsOk
      simp [h16, hsel, hframe]
    · intro hbit
      have h0 : c.bit_rate ≠ 0 := by omega
      have hle : ¬ c.bit_rate ≤ 56000 := by omega
      unfold Config.IsOk
      simp [h16, hsel, h0, hle]
  · intro h16 h32 h48
    unfold Config.IsOk
    simp [h16, h32, h48]

/-- Witness for C4: one rejected configuration for each of the four reasons. -/
theorem C4_wide_profile_rejections_witness :
    Config.IsOk false { sample_rate_hz := 32000 } = false ∧
    Config.IsOk true { sample_rate_hz := 48000, frame_size_ms := 60 } = false ∧
    Config.IsOk true { sample_rate_hz := 32000, bit_rate := 56001 } = false ∧
    Config.IsOk true { sample_rate_hz := 8000 } = false :=
  ⟨((C4_wide_profile_rejections false { sample_rate_hz := 32000 }).1 (Or.inl rfl)).1 rfl,
   ((C4_wide_profile_rejections true { sample_rate_hz := 48000, frame_size_ms := 60 }).1
      (Or.inr rfl)).2.1 (by decide),
   ((C4_wide_profile_rejections true { sample_rate_hz := 32000, bit_rate := 56001 }).1
      (Or.inl rfl)).2.2 (by decide),
   (C4_wide_profile_rejections true { sample_rate_hz := 8000 }).2 (by decide) (by decide)
      (by decide)⟩

/-! ## Lemmas: the encoder adapter -/

namespace AudioEncoderIsacT

/-- A checked engine call that returns has appended the call and nothing
else. -/
theorem RTC_CHECK_EQ_0_ok {T : IsacT} {s s1 : AudioEncoderIsacT} {call : EngineCall}
    (h : RTC_CHECK_EQ_0 T s call = .ok s1) :
    s1 = { s with calls := s.calls ++ [call] } ∧ T.ret call = 0 := by
  unfold RTC_CHECK_EQ_0 at h
  split_ifs at h with h0
  · simp only [Except.ok.injEq] at h
    exact ⟨h.symm, h0⟩

/-- What `EncodeInternal` does when the engine returns 0. -/
theorem EncodeInternal_zero (T : IsacT) (stores : Stores) (s : AudioEncoderIsacT)
    (rtp_timestamp : Nat) (audio : List Int) (max_encoded_bytes : Nat)
    (hr : T.ret (.Encode audio) = 0) :
    ∃ s1, s.EncodeInternal T stores rtp_timestamp audio max_encoded_bytes = .ok (s1, {}) ∧
      s1.packet_in_progress_ = true ∧
      s1.packet_timestamp_ =
        (if s.packet_in_progress_ then s.packet_timestamp_ else rtp_timestamp) ∧
      s1.config_ = s.config_ ∧ s1.bwinfo_ = s.bwinfo_ := by
  rcases s with ⟨cfg, ist, bw, pip, pts, lts, calls⟩
  cases pip <;> cases bw <;> simp [EncodeInternal, hr]

/-- What `EncodeInternal` does when the engine returns a positive count within
the buffer size. -/
theorem EncodeInternal_pos (T : IsacT) (stores : Stores) (s : AudioEncoderIsacT)
    (rtp_timestamp : Nat) (audio : List Int) (max_encoded_bytes : Nat)
    (hpos : 0 < T.ret (.Encode audio))
    (hmax : T.ret (.Encode audio) ≤ (max_encoded_bytes : Int)) :
    ∃ s1, s.EncodeInternal T stores rtp_timestamp audio max_encoded_bytes =
        .ok (s1, { encoded_bytes := (T.ret (.Encode audio)).toNat,
                   encoded_timestamp :=
                     if s.packet_in_progress_ then s.packet_timestamp_ else rtp_timestamp,
                   payload_type := s.config_.payload_type }) ∧
      s1.packet_in_progress_ = false ∧
      s1.config_ = s.config_ ∧ s1.bwinfo_ = s.bwinfo_ := by
  rcases s with ⟨cfg, ist, bw, pip, pts, lts, calls⟩
  have h1 : ¬ T.ret (.Encode audio) < 0 := by omega
  have h2 : ¬ (T.ret (.Encode audio)).toNat > max_encoded_bytes := by omega
  have h3 : (T.ret (.Encode audio) == 0) = false := by
    simp only [beq_eq_false_iff_ne, ne_eq]; omega
  cases pip <;> cases bw <;> simp [EncodeInternal, h1, h2, h3]

/-- A call of `EncodeInternal` that returns saw a nonnegative engine result
within the buffer size. -/
theorem EncodeInternal_ok_range {T : IsacT} {stores : Stores} {s s1 : AudioEncoderIsacT}
    {rtp_timestamp : Nat} {audio : List Int} {max_encoded_bytes : Nat} {info : EncodedInfo}
    (h : s.EncodeInternal T stores rtp_timestamp audio max_encoded_bytes = .ok (s1, info)) :
    0 ≤ T.ret (.Encode audio) ∧ T.ret (.Encode audio) ≤ (max_encoded_bytes : Int) := by
  by_cases h1 : T.ret (.Encode audio) < 0
  · simp [EncodeInternal, h1] at h
  · by_cases h2 : (T.ret (.Encode audio)).toNat > max_encoded_bytes
    · simp [EncodeInternal, h1, h2] at h
    · exact ⟨by omega, by omega⟩

/-- After a call of `EncodeInternal` that returns, a packet is in progress
exactly when the engine returned 0. -/
theorem EncodeInternal_ok_in_progress {T : IsacT} {stores : Stores}
    {s s1 : AudioEncoderIsacT} {rtp_timestamp : Nat} {audio : List Int}
    {max_encoded_bytes : Nat} {info : EncodedInfo}
    (h : s.EncodeInternal T stores rtp_timestamp audio max_encoded_bytes = .ok (s1, info)) :
    s1.packet_in_progress_ = (T.ret (.Encode audio) == 0) := by
  have hrange := EncodeInternal_ok_range h
  by_cases h0 : T.ret (.Encode audio) = 0
  · obtain ⟨s2, h2, hp, -⟩ :=
      EncodeInternal_zero T stores s rtp_timestamp audio max_encoded_bytes h0
    rw [h2] at h
    simp only [Except.ok.injEq, Prod.mk.injEq] at h
    rw [← h.1, hp, h0]
    rfl
  · obtain ⟨s2, h2, hp, -⟩ :=
      EncodeInternal_pos T stores s rtp_timestamp audio max_encoded_bytes (by omega) hrange.2
    rw [h2] at h
    simp only [Except.ok.injEq, Prod.mk.injEq] at h
    rw [← h.1, hp]
    simp [h0]

/-- When a checked engine call returns, and what it returns. -/
theorem RTC_CHECK_EQ_0_eq_ok (T : IsacT) (s s1 : AudioEncoderIsacT) (call : EngineCall) :
    RTC_CHECK_EQ_0 T s call = .ok s1 ↔
      T.ret call = 0 ∧ s1 = { s with calls := s.calls ++ [call] } := by
  unfold RTC_CHECK_EQ_0
  by_cases h0 : T.ret call = 0
  · simp only [h0, ↓reduceIte, Except.ok.injEq, true_and]
    exact eq_comm
  · simp [h0]

/-- A run of `RecreateEncoderInstance` that returns leaves no packet in
progress, stores the given configuration and Store pointer, and keeps the
captured timestamp. -/
theorem RecreateEncoderInstance_ok {T : IsacT} {s s1 : AudioEncoderIsacT} {config : Config}
    (h : s.RecreateEncoderInstance T config = .ok s1) :
    config.IsOk T.has_swb = true ∧ s1.packet_in_progress_ = false ∧ s1.config_ = config ∧
      s1.bwinfo_ = config.bwinfo ∧ s1.packet_timestamp_ = s.packet_timestamp_ := by
  unfold RecreateEncoderInstance at h
  by_cases hok : config.IsOk T.has_swb = true
  swap
  · simp [hok, throw, throwThe, MonadExceptOf.throw, bind, Except.bind] at h
  simp only [hok, Bool.not_true, Bool.false_eq_true, ↓reduceIte, pure, Except.pure, bind,
    Except.bind] at h
  refine ⟨hok, ?_⟩
  repeat' split at h
  all_goals cases h
  all_goals simp_all [RTC_CHECK_EQ_0_eq_ok]

end AudioEncoderIsacT

/-! ## Theorems: the packetizer state machine -/

/-- Unfolding of `encodeAll` at a nonempty list. -/
theorem encodeAll_cons (s : AudioEncoderIsacT) (c : EncodeCall) (cs : List EncodeCall) :
    encodeAll s (c :: cs) =
      match s.EncodeInternal c.T c.stores c.rtp_timestamp c.audio c.max_encoded_bytes with
      | .error e => .error e
      | .ok (s1, info) =>
        match encodeAll s1 cs with
        | .error e => .error e
        | .ok (s2, infos) => .ok (s2, info :: infos) := rfl

/-- While a packet is in progress, a run of calls in which the engine returns 0
and then a positive count emits the captured timestamp. -/
theorem encodeAll_accumulating (last : EncodeCall) (hpos : 0 < last.r)
    (hmax : last.r ≤ (last.max_encoded_bytes : Int)) :
    ∀ (pre : List EncodeCall) (s : AudioEncoderIsacT),
      s.packet_in_progress_ = true → (∀ c ∈ pre, c.r = 0) →
      ∃ s1 info, encodeAll s (pre ++ [last]) = .ok (s1, pre.map (fun _ => ({} : EncodedInfo)) ++ [info]) ∧
        info.encoded_timestamp = s.packet_timestamp_ := by
  intro pre
  induction pre with
  | nil =>
    intro s hprog _
    obtain ⟨s1, h1, -⟩ := AudioEncoderIsacT.EncodeInternal_pos last.T last.stores s
      last.rtp_timestamp last.audio last.max_encoded_bytes hpos hmax
    have hrun := encodeAll_cons s last []
    rw [h1] at hrun
    exact ⟨s1, _, hrun, by simp [hprog]⟩
  | cons c cs ih =>
    intro s hprog hzero
    obtain ⟨s1, h1, hp1, ht1, -⟩ := AudioEncoderIsacT.EncodeInternal_zero c.T c.stores s
      c.rtp_timestamp c.audio c.max_encoded_bytes (hzero c (List.mem_cons_self c cs))
    obtain ⟨s2, info, h2, ht2⟩ := ih s1 hp1 (fun d hd => hzero d (List.mem_cons_of_mem c hd))
    refine ⟨s2, info, ?_, ?_⟩
    · rw [List.cons_append, encodeAll_cons, h1]
      simp only [h2, List.map_cons, List.cons_append]
    · rw [ht2, ht1]
      simp [hprog]

/-- C5: starting with no packet in progress, when the engine returns 0 on the
first N calls and a positive count within the buffer size on the last, the run
returns, the first N results are empty units, and the last result carries the
timestamp of the first call. -/
theorem C5_emitted_timestamp_is_first_call (s : AudioEncoderIsacT) (pre : List EncodeCall)
    (last : EncodeCall) (hidle : s.packet_in_progress_ = false)
    (hzero : ∀ c ∈ pre, c.r = 0) (hpos : 0 < last.r)
    (hmax : last.r ≤ (last.max_encoded_bytes : Int)) :
    ∃ s1 info, encodeAll s (pre ++ [last]) = .ok (s1, pre.map (fun _ => ({} : EncodedInfo)) ++ [info]) ∧
      some info.encoded_timestamp = ((pre ++ [last]).head?).map (fun c => c.rtp_timestamp) := by
  cases pre with
  | nil =>
    obtain ⟨s1, h1, -⟩ := AudioEncoderIsacT.EncodeInternal_pos last.T last.stores s
      last.rtp_timestamp last.audio last.max_encoded_bytes hpos hmax
    have hrun := encodeAll_cons s last []
    rw [h1] at hrun
    exact ⟨s1, _, hrun, by simp [hidle]⟩
  | cons c cs =>
    obtain ⟨s1, h1, hp1, ht1, -⟩ := AudioEncoderIsacT.EncodeInternal_zero c.T c.stores s
      c.rtp_timestamp c.audio c.max_encoded_bytes (hzero c (List.mem_cons_self c cs))
    obtain ⟨s2, info, h2, ht2⟩ := encodeAll_accumulating last hpos hmax cs s1 hp1
      (fun d hd => hzero d (List.mem_cons_of_mem c hd))
    refine ⟨s2, info, ?_, ?_⟩
    · rw [List.cons_append, encodeAll_cons, h1]
      simp only [h2, List.map_cons, List.cons_append]
    · rw [ht2, ht1]
      simp [hidle]

/-- Witness for C5: 10 ms inputs at timestamps 0, 160 and 320 with engine
results 0, 0 and 50 give two empty units and then a unit with timestamp 0. -/
theorem C5_emitted_timestamp_is_first_call_witness :
    ∃ s1 info,
      encodeAll idleEncoder [tenMsCall 0 0, tenMsCall 160 0, tenMsCall 320 50] =
        .ok (s1, [{}, {}, info]) ∧
      some info.encoded_timestamp = some 0 :=
  C5_emitted_timestamp_is_first_call idleEncoder [tenMsCall 0 0, tenMsCall 160 0]
    (tenMsCall 320 50) rfl (by simp [EncodeCall.r, tenMsCall, engineReturning])
    (by decide) (by decide)

/-- Along a run of operations that returns, a packet is in progress at the end
exactly when the history says input is pending. -/
theorem applyOps_in_progress :
    ∀ (ops : List EncoderOp) (s s1 : AudioEncoderIsacT), applyOps s ops = .ok s1 →
      s1.packet_in_progress_ = inputPending s.packet_in_progress_ ops := by
  intro ops
  induction ops with
  | nil =>
    intro s s1 h
    simp only [applyOps, Except.ok.injEq] at h
    rw [← h]
    rfl
  | cons op ops ih =>
    intro s s1 h
    cases op with
    | Encode c =>
      simp only [applyOps, EncoderOp.apply] at h
      cases hstep : s.EncodeInternal c.T c.stores c.rtp_timestamp c.audio c.max_encoded_bytes with
      | error e => simp [hstep, Except.map] at h
      | ok res =>
        obtain ⟨s2, info⟩ := res
        simp only [hstep, Except.map] at h
        rw [ih s2 s1 h, AudioEncoderIsacT.EncodeInternal_ok_in_progress hstep]
        rfl
    | Reset T =>
      simp only [applyOps, EncoderOp.apply, AudioEncoderIsacT.Reset] at h
      cases hstep : s.RecreateEncoderInstance T s.config_ with
      | error e => simp [hstep] at h
      | ok s2 =>
        simp only [hstep] at h
        rw [ih s2 s1 h, (AudioEncoderIsacT.RecreateEncoderInstance_ok hstep).2.1]
        rfl

/-- C6: the invariant of `packet_in_progress_`. It is false after
`RecreateEncoderInstance` and so after construction; after an `EncodeInternal`
call it is false when the engine returned a positive count and true when the
engine returned 0; and in every state reached from construction by `Encode` and
`Reset` operations it is true exactly when input has been accepted since the
last emission or (re)configuration. -/
theorem C6_packet_in_progress_invariant :
    (∀ (T : IsacT) (s s1 : AudioEncoderIsacT) (config : Config),
      s.RecreateEncoderInstance T config = .ok s1 → s1.packet_in_progress_ = false) ∧
    (∀ (T : IsacT) (pts lts : Nat) (config : Config) (s1 : AudioEncoderIsacT),
      AudioEncoderIsacT.create T pts lts config = .ok s1 → s1.packet_in_progress_ = false) ∧
    (∀ (T : IsacT) (stores : Stores) (s : AudioEncoderIsacT) (rtp_timestamp : Nat)
      (audio : List Int) (max_encoded_bytes : Nat),
      0 < T.ret (.Encode audio) → T.ret (.Encode audio) ≤ (max_encoded_bytes : Int) →
      ∃ s1 info, s.EncodeInternal T stores rtp_timestamp audio max_encoded_bytes =
        .ok (s1, info) ∧ s1.packet_in_progress_ = false) ∧
    (∀ (T : IsacT) (stores : Stores) (s : AudioEncoderIsacT) (rtp_timestamp : Nat)
      (audio : List Int) (max_encoded_bytes : Nat),
      T.ret (.Encode audio) = 0 →
      ∃ s1 info, s.EncodeInternal T stores rtp_timestamp audio max_encoded_bytes =
        .ok (s1, info) ∧ s1.packet_in_progress_ = true) ∧
    (∀ (T : IsacT) (pts lts : Nat) (config : Config) (ops : List EncoderOp)
      (s0 s1 : AudioEncoderIsacT),
      AudioEncoderIsacT.create T pts lts config = .ok s0 → applyOps s0 ops = .ok s1 →
      s1.packet_in_progress_ = inputPending false ops) := by
  refine ⟨?_, ?_, ?_, ?_, ?_⟩
  · intro T s s1 config h
    exact (AudioEncoderIsacT.RecreateEncoderInstance_ok h).2.1
  · intro T pts lts config s1 h
    exact (AudioEncoderIsacT.RecreateEncoderInstance_ok h).2.1
  · intro T stores s rtp_timestamp audio max_encoded_bytes hpos hmax
    obtain ⟨s1, h1, hp, -⟩ := AudioEncoderIsacT.EncodeInternal_pos T stores s rtp_timestamp
      audio max_encoded_bytes hpos hmax
    exact ⟨s1, _, h1, hp⟩
  · intro T stores s rtp_timestamp audio max_encoded_bytes hr
    obtain ⟨s1, h1, hp, -⟩ := AudioEncoderIsacT.EncodeInternal_zero T stores s rtp_timestamp
      audio max_encoded_bytes hr
    exact ⟨s1, _, h1, hp⟩
  · intro T pts lts config ops s0 s1 h0 h1
    rw [applyOps_in_progress ops s0 s1 h1, (AudioEncoderIsacT.RecreateEncoderInstance_ok h0).2.1]

/-- Witness for C6: an encoder is constructed from the default configuration,
takes two inputs the engine buffers, one on which it emits 50 bytes, is reset,
and takes one more buffered input; a packet is then in progress. -/
theorem C6_packet_in_progress_invariant_witness :
    ∃ s0 s1,
      AudioEncoderIsacT.create (engineReturning 0) 7 0 {} = .ok s0 ∧
      applyOps s0 [.Encode (tenMsCall 0 0), .Encode (tenMsCall 160 0),
        .Encode (tenMsCall 320 50), .Reset (engineReturning 0),
        .Encode (tenMsCall 480 0)] = .ok s1 ∧
      s1.packet_in_progress_ = true :=
  ⟨_, _, rfl, rfl,
    C6_packet_in_progress_invariant.2.2.2.2 (engineReturning 0) 7 0 {}
      [.Encode (tenMsCall 0 0), .Encode (tenMsCall 160 0), .Encode (tenMsCall 320 50),
        .Reset (engineReturning 0), .Encode (tenMsCall 480 0)] _ _ rfl rfl⟩

/-- C7: when the engine reports 0 bytes, `EncodeInternal` returns the
default-constructed, zero-length `EncodedInfo`, a packet is in progress
afterwards, and a timestamp captured earlier is kept. -/
theorem C7_zero_bytes_keeps_accumulating (T : IsacT) (stores : Stores)
    (s : AudioEncoderIsacT) (rtp_timestamp : Nat) (audio : List Int)
    (max_encoded_bytes : Nat) (hr : T.ret (.Encode audio) = 0) :
    ∃ s1, s.EncodeInternal T stores rtp_timestamp audio max_encoded_bytes =
        .ok (s1, ({} : EncodedInfo)) ∧
      ({} : EncodedInfo).encoded_bytes = 0 ∧
      s1.packet_in_progress_ = true ∧
      (s.packet_in_progress_ = true → s1.packet_timestamp_ = s.packet_timestamp_) := by
  obtain ⟨s1, h1, hp, ht, -⟩ := AudioEncoderIsacT.EncodeInternal_zero T stores s rtp_timestamp
    audio max_encoded_bytes hr
  refine ⟨s1, h1, rfl, hp, ?_⟩
  intro hprog
  rw [ht]
  simp [hprog]

/-- Witness for C7: an encoder that captured timestamp 7 and is accumulating
takes an input at timestamp 160 on which the engine returns 0. -/
theorem C7_zero_bytes_keeps_accumulating_witness :
    ∃ s1, AudioEncoderIsacT.EncodeInternal (engineReturning 0) emptyStores
        { idleEncoder with packet_in_progress_ := true } 160 [] 400 =
        .ok (s1, ({} : EncodedInfo)) ∧
      ({} : EncodedInfo).encoded_bytes = 0 ∧
      s1.packet_in_progress_ = true ∧
      (true = true → s1.packet_timestamp_ = 7) :=
  C7_zero_bytes_keeps_accumulating (engineReturning 0) emptyStores
    { idleEncoder with packet_in_progress_ := true } 160 [] 400 rfl

/-- C8: when the engine returns a positive count within the buffer size,
`EncodeInternal` returns a unit with that byte count and the payload type of
the stored configuration, and no packet is in progress afterwards. -/
theorem C8_positive_count_emits (T : IsacT) (stores : Stores) (s : AudioEncoderIsacT)
    (rtp_timestamp : Nat) (audio : List Int) (max_encoded_bytes : Nat)
    (hpos : 0 < T.ret (.Encode audio))
    (hmax : T.ret (.Encode audio) ≤ (max_encoded_bytes : Int)) :
    ∃ s1 info, s.EncodeInternal T stores rtp_timestamp audio max_encoded_bytes =
        .ok (s1, info) ∧
      (info.encoded_bytes : Int) = T.ret (.Encode audio) ∧
      info.payload_type = s.config_.payload_type ∧
      s1.packet_in_progress_ = false := by
  obtain ⟨s1, h1, hp, -⟩ := AudioEncoderIsacT.EncodeInternal_pos T stores s rtp_timestamp
    audio max_encoded_bytes hpos hmax
  refine ⟨s1, _, h1, ?_, rfl, hp⟩
  simp only [Int.toNat_of_nonneg (le_of_lt hpos)]

/-- Witness for C8: the engine returns 50 bytes into a 400-byte buffer. -/
theorem C8_positive_count_emits_witness :
    ∃ s1 info, AudioEncoderIsacT.EncodeInternal (engineReturning 50) emptyStores idleEncoder
        320 [] 400 = .ok (s1, info) ∧
      (info.encoded_bytes : Int) = 50 ∧
      info.payload_type = 103 ∧
      s1.packet_in_progress_ = false :=
  C8_positive_count_emits (engineReturning 50) emptyStores idleEncoder 320 [] 400
    (by decide) (by decide)

/-! ## Theorems: the error paths -/

/-- C9: `AudioEncoder::Encode` fails fatally, with the object untouched and
whatever `EncodeInternal` would do, when the sample count differs from
`SampleRateHz() / 100` as converted to `size_t`; with the right sample count it
fails fatally when `EncodeInternal` yields more bytes than the buffer holds and
otherwise returns exactly what `EncodeInternal` yields; so whatever it returns
fits the buffer. For a sample rate in the range of a nonnegative `int` the
converted quotient is the plain quotient. -/
theorem C9_Encode_checks {σ : Type} (enc : AudioEncoder σ) (s : σ) (rtp_timestamp : Nat)
    (audio : List Int) (num_samples_per_channel max_encoded_bytes : Nat) :
    (num_samples_per_channel ≠ static_cast_size_t (Int.tdiv (enc.SampleRateHz s) 100) →
      enc.Encode s rtp_timestamp audio num_samples_per_channel max_encoded_bytes =
        .error ⟨.NumSamplesPerChannel num_samples_per_channel
          (static_cast_size_t (Int.tdiv (enc.SampleRateHz s) 100)), s⟩) ∧
    (num_samples_per_channel = static_cast_size_t (Int.tdiv (enc.SampleRateHz s) 100) →
      ∀ (s1 : σ) (info : EncodedInfo),
        enc.EncodeInternal s rtp_timestamp audio max_encoded_bytes = .ok (s1, info) →
        (info.encoded_bytes > max_encoded_bytes →
          enc.Encode s rtp_timestamp audio num_samples_per_channel max_encoded_bytes =
            .error ⟨.EncodedBytes info.encoded_bytes max_encoded_bytes, s1⟩) ∧
        (info.encoded_bytes ≤ max_encoded_bytes →
          enc.Encode s rtp_timestamp audio num_samples_per_channel max_encoded_bytes =
            .ok (s1, info))) ∧
    (∀ (s1 : σ) (info : EncodedInfo),
      enc.Encode s rtp_timestamp audio num_samples_per_channel max_encoded_bytes =
        .ok (s1, info) →
      enc.EncodeInternal s rtp_timestamp audio max_encoded_bytes = .ok (s1, info) ∧
      info.encoded_bytes ≤ max_encoded_bytes) ∧
    (0 ≤ enc.SampleRateHz s → enc.SampleRateHz s < 2 ^ 31 →
      (static_cast_size_t (Int.tdiv (enc.SampleRateHz s) 100) : Int) =
        enc.SampleRateHz s / 100) := by
  refine ⟨?_, ?_, ?_, ?_⟩
  · intro hne
    simp only [AudioEncoder.Encode, hne, ne_eq, not_false_eq_true, ↓reduceIte]
  · intro heq s1 info hint
    constructor
    · intro hbig
      simp only [AudioEncoder.Encode, heq, ne_eq, not_true_eq_false, ↓reduceIte, hint, hbig]
    · intro hfit
      have hnot : ¬ info.encoded_bytes > max_encoded_bytes := by omega
      simp only [AudioEncoder.Encode, heq, ne_eq, not_true_eq_false, ↓reduceIte, hint, hnot]
  · intro s1 info h
    unfold AudioEncoder.Encode at h
    simp only at h
    split_ifs at h with hne
    cases hint : enc.EncodeInternal s rtp_timestamp audio max_encoded_bytes with
    | error e => simp [hint] at h
    | ok res =>
      obtain ⟨s2, info2⟩ := res
      simp only [hint] at h
      split_ifs at h with hbig
      simp only [Except.ok.injEq, Prod.mk.injEq] at h
      obtain ⟨rfl, rfl⟩ := h
      exact ⟨rfl, by omega⟩
  · intro hlo hhi
    have hq : Int.tdiv (enc.SampleRateHz s) 100 = enc.SampleRateHz s / 100 :=
      Int.tdiv_eq_ediv hlo (by decide)
    have hq0 : 0 ≤ enc.SampleRateHz s / 100 := Int.ediv_nonneg hlo (by decide)
    have hq1 : enc.SampleRateHz s / 100 < 2 ^ 64 := by omega
    unfold static_cast_size_t
    rw [hq, Int.emod_eq_of_lt hq0 hq1, Int.toNat_of_nonneg hq0]

/-- Witness for C9: on the iSAC encoder at 16000 Hz, 159 samples are fatal and
leave the encoder as it was, and 160 samples give the result of
`EncodeInternal`. -/
theorem C9_Encode_checks_witness :
    (AudioEncoderIsacT.asAudioEncoder (engineReturning 50) emptyStores).Encode idleEncoder 0 []
        159 400 = .error ⟨.NumSamplesPerChannel 159 160, idleEncoder⟩ ∧
    (AudioEncoderIsacT.asAudioEncoder (engineReturning 50) emptyStores).Encode idleEncoder 0 []
        160 400 =
      .ok ({ idleEncoder with packet_timestamp_ := 0, calls := [.Encode []] },
           { encoded_bytes := 50, encoded_timestamp := 0, payload_type := 103 }) :=
  ⟨(C9_Encode_checks (AudioEncoderIsacT.asAudioEncoder (engineReturning 50) emptyStores)
      idleEncoder 0 [] 159 400).1 (by decide),
   ((C9_Encode_checks (AudioEncoderIsacT.asAudioEncoder (engineReturning 50) emptyStores)
      idleEncoder 0 [] 160 400).2.1 (by decide) _ _ rfl).2 (by decide)⟩

/-- C10 (as stated) fails on the encode side: when the engine's `Encode`
returns -1, `EncodeInternal` does not return a result to its caller; it ends in
the fatal check `RTC_CHECK_GE(r, 0)`, after reading `GetErrorCode`. -/
theorem C10_counterexample_encode_failure_is_fatal :
    (engineReturning (-1)).ret (.Encode []) < 0 ∧
    AudioEncoderIsacT.EncodeInternal (engineReturning (-1)) emptyStores idleEncoder 0 [] 400 =
      .error ⟨.EncodeFailed (-1) 0,
        { idleEncoder with packet_in_progress_ := true, packet_timestamp_ := 0,
                           calls := [.Encode [], .GetErrorCode] }⟩ ∧
    ¬ ∃ s1 info,
      AudioEncoderIsacT.EncodeInternal (engineReturning (-1)) emptyStores idleEncoder 0 [] 400 =
        .ok (s1, info) := by
  refine ⟨by decide, rfl, ?_⟩
  rintro ⟨s1, info, h⟩
  have hrange := AudioEncoderIsacT.EncodeInternal_ok_range h
  exact absurd hrange.1 (by decide)

/-- C10 (as amended): a negative status of the engine's decode call is returned
unchanged by `DecodeInternal`, which issues that call once, after at most one
`SetDecSampRate`; a negative status of the engine's encode call makes
`EncodeInternal` fail fatally, the failure carrying the engine's error code,
after one `Encode` and one `GetErrorCode`. -/
theorem C10_engine_failure_paths :
    (∀ (T : IsacT) (stores : Stores) (s : AudioEncoderIsacT) (rtp_timestamp : Nat)
      (audio : List Int) (max_encoded_bytes : Nat),
      T.ret (.Encode audio) < 0 →
      ∃ a, s.EncodeInternal T stores rtp_timestamp audio max_encoded_bytes = .error a ∧
        a.check = .EncodeFailed (T.ret (.Encode audio)) (T.ret .GetErrorCode) ∧
        a.state.calls =
          s.calls ++
            (match s.bwinfo_ with
              | some p => [EngineCall.SetBandwidthInfo (stores p).Get]
              | none => []) ++
            [EngineCall.Encode audio, EngineCall.GetErrorCode]) ∧
    (∀ {SpeechType : Type} (ConvertSpeechType : Int → SpeechType) (T : IsacT)
      (s : AudioDecoderIsacT) (encoded : List Nat) (sample_rate_hz : Int),
      sample_rate_hz = 16000 ∨ sample_rate_hz = 32000 ∨ sample_rate_hz = 48000 →
      ((if sample_rate_hz = 48000 then 32000 else sample_rate_hz) ≠ s.decoder_sample_rate_hz_ →
        T.ret (.SetDecSampRate (if sample_rate_hz = 48000 then 32000 else sample_rate_hz)) = 0) →
      T.ret (.DecodeInternal encoded) < 0 →
      ∃ s1 speech_type,
        s.DecodeInternal ConvertSpeechType T encoded sample_rate_hz =
          .ok (s1, T.ret (.DecodeInternal encoded), speech_type) ∧
        s1.calls =
          s.calls ++
            (if (if sample_rate_hz = 48000 then 32000 else sample_rate_hz) ≠
                s.decoder_sample_rate_hz_
              then [EngineCall.SetDecSampRate
                (if sample_rate_hz = 48000 then 32000 else sample_rate_hz)]
              else []) ++
            [EngineCall.DecodeInternal encoded]) := by
  constructor
  · intro T stores s rtp_timestamp audio max_encoded_bytes hneg
    rcases s with ⟨cfg, ist, bw, pip, pts, lts, calls⟩
    cases pip <;> cases bw <;> simp [AudioEncoderIsacT.EncodeInternal, hneg]
  · intro SpeechType ConvertSpeechType T s encoded sample_rate_hz hrate hset _
    rcases s with ⟨ist, bw, cur, calls⟩
    rcases hrate with rfl | rfl | rfl
    · by_cases hcur : (16000 : Int) = cur
      · subst hcur
        simp [AudioDecoderIsacT.DecodeInternal, bind, Except.bind, pure, Except.pure]
      · have hs : T.ret (.SetDecSampRate 16000) = 0 := by simpa using hset (by simpa using hcur)
        simp [AudioDecoderIsacT.DecodeInternal, AudioDecoderIsacT.RTC_CHECK_EQ_0, bind,
          Except.bind, pure, Except.pure, Except.map, hcur, hs]
    · by_cases hcur : (32000 : Int) = cur
      · subst hcur
        simp [AudioDecoderIsacT.DecodeInternal, bind, Except.bind, pure, Except.pure]
      · have hs : T.ret (.SetDecSampRate 32000) = 0 := by simpa using hset (by simpa using hcur)
        simp [AudioDecoderIsacT.DecodeInternal, AudioDecoderIsacT.RTC_CHECK_EQ_0, bind,
          Except.bind, pure, Except.pure, Except.map, hcur, hs]
    · by_cases hcur : (32000 : Int) = cur
      · subst hcur
        simp [AudioDecoderIsacT.DecodeInternal, bind, Except.bind, pure, Except.pure]
      · have hs : T.ret (.SetDecSampRate 32000) = 0 := by simpa using hset (by simpa using hcur)
        simp [AudioDecoderIsacT.DecodeInternal, AudioDecoderIsacT.RTC_CHECK_EQ_0, bind,
          Except.bind, pure, Except.pure, Except.map, hcur, hs]

/-- Witness for C10 (as amended): the encoder at rest with an engine whose
`Encode` returns -1, and a fresh decoder asked for 48000 Hz with an engine whose
decode returns -1. -/
theorem C10_engine_failure_paths_witness :
    (∃ a, AudioEncoderIsacT.EncodeInternal (engineReturning (-1)) emptyStores idleEncoder
        0 [] 400 = .error a ∧
      a.check = .EncodeFailed (-1) 0 ∧
      a.state.calls = [EngineCall.Encode [], EngineCall.GetErrorCode]) ∧
    (∃ s1 speech_type,
      AudioDecoderIsacT.DecodeInternal (fun t : Int => t) (engineDecoding (-1)) freshDecoder
        [1, 2, 3] 48000 = .ok (s1, -1, speech_type) ∧
      s1.calls = [EngineCall.Create, EngineCall.DecoderInit, EngineCall.SetDecSampRate 32000,
        EngineCall.DecodeInternal [1, 2, 3]]) :=
  ⟨C10_engine_failure_paths.1 (engineReturning (-1)) emptyStores idleEncoder 0 [] 400
      (by decide),
   C10_engine_failure_paths.2 (fun t : Int => t) (engineDecoding (-1)) freshDecoder [1, 2, 3]
      48000 (Or.inr (Or.inr rfl)) (fun _ => rfl) (by decide)⟩

/-! ## Lemmas: (re)configuration and the calls issued by the encoder -/

namespace AudioEncoderIsacT

/-- A configuration that fails `IsOk` ends `RecreateEncoderInstance` in its
first check, with the object as it was. -/
theorem RecreateEncoderInstance_reject (T : IsacT) (s : AudioEncoderIsacT) (config : Config)
    (hbad : config.IsOk T.has_swb = false) :
    s.RecreateEncoderInstance T config = .error ⟨.ConfigIsOk, s⟩ := by
  unfold RecreateEncoderInstance
  simp [hbad, throw, throwThe, MonadExceptOf.throw, bind, Except.bind]

/-- The calls a run of `RecreateEncoderInstance` that returns has issued. -/
theorem RecreateEncoderInstance_calls {T : IsacT} {s s1 : AudioEncoderIsacT} {config : Config}
    (h : s.RecreateEncoderInstance T config = .ok s1) :
    s1.calls = s.calls ++ recreateCalls s.isac_state_ config := by
  unfold RecreateEncoderInstance at h
  by_cases hok : config.IsOk T.has_swb = true
  swap
  · simp [hok, throw, throwThe, MonadExceptOf.throw, bind, Except.bind] at h
  simp only [hok, Bool.not_true, Bool.false_eq_true, ↓reduceIte, pure, Except.pure, bind,
    Except.bind] at h
  unfold recreateCalls
  repeat' split at h
  all_goals cases h
  all_goals simp_all [RTC_CHECK_EQ_0_eq_ok]

/-- With a valid configuration and an engine that reports success on every
call, `RecreateEncoderInstance` returns. -/
theorem RecreateEncoderInstance_returns (T : IsacT) (s : AudioEncoderIsacT) (config : Config)
    (hok : config.IsOk T.has_swb = true) (hzero : ∀ call, T.ret call = 0) :
    ∃ s1, s.RecreateEncoderInstance T config = .ok s1 := by
  unfold RecreateEncoderInstance
  simp only [hok, Bool.not_true, Bool.false_eq_true, ↓reduceIte, pure, Except.pure, bind,
    Except.bind, RTC_CHECK_EQ_0, hzero]
  repeat' split
  all_goals exact ⟨_, rfl⟩

/-- The engine calls one `EncodeInternal` call issues, whether it returns or
ends in a fatal check: the Store's value is pushed first when a Store is
attached, then `Encode` is called, and `GetErrorCode` is read on a negative
result. -/
theorem EncodeInternal_calls (T : IsacT) (stores : Stores) (s : AudioEncoderIsacT)
    (rtp_timestamp : Nat) (audio : List Int) (max_encoded_bytes : Nat) :
    (objectAfter (s.EncodeInternal T stores rtp_timestamp audio max_encoded_bytes)).calls =
      s.calls ++
        (match s.bwinfo_ with
          | some p => [EngineCall.SetBandwidthInfo (stores p).Get]
          | none => []) ++
        [EngineCall.Encode audio] ++
        (if T.ret (.Encode audio) < 0 then [EngineCall.GetErrorCode] else []) := by
  rcases s with ⟨cfg, ist, bw, pip, pts, lts, calls⟩
  by_cases h1 : T.ret (.Encode audio) < 0
  · cases pip <;> cases bw <;> simp [EncodeInternal, objectAfter, h1]
  · by_cases h2 : (T.ret (.Encode audio)).toNat > max_encoded_bytes
    · cases pip <;> cases bw <;> simp [EncodeInternal, objectAfter, h1, h2]
    · by_cases h3 : T.ret (.Encode audio) = 0
      · cases pip <;> cases bw <;> simp [EncodeInternal, objectAfter, h3]
      · cases pip <;> cases bw <;> simp [EncodeInternal, objectAfter, h1, h2, h3]

/-- A call of `EncodeInternal` that returns keeps the stored configuration and
the Store pointer. -/
theorem EncodeInternal_ok_frame {T : IsacT} {stores : Stores} {s s1 : AudioEncoderIsacT}
    {rtp_timestamp : Nat} {audio : List Int} {max_encoded_bytes : Nat} {info : EncodedInfo}
    (h : s.EncodeInternal T stores rtp_timestamp audio max_encoded_bytes = .ok (s1, info)) :
    s1.config_ = s.config_ ∧ s1.bwinfo_ = s.bwinfo_ := by
  have hrange := EncodeInternal_ok_range h
  by_cases h0 : T.ret (.Encode audio) = 0
  · obtain ⟨s2, h2, -, -, hc, hb⟩ :=
      EncodeInternal_zero T stores s rtp_timestamp audio max_encoded_bytes h0
    rw [h2] at h
    simp only [Except.ok.injEq, Prod.mk.injEq] at h
    rw [← h.1]
    exact ⟨hc, hb⟩
  · obtain ⟨s2, h2, -, hc, hb⟩ :=
      EncodeInternal_pos T stores s rtp_timestamp audio max_encoded_bytes (by omega) hrange.2
    rw [h2] at h
    simp only [Except.ok.injEq, Prod.mk.injEq] at h
    rw [← h.1]
    exact ⟨hc, hb⟩

end AudioEncoderIsacT

/-- Along a run of `Encode` and `Reset` operations that returns, the stored
configuration is kept, and so is the Store pointer when it agrees with the
stored configuration at the start. -/
theorem applyOps_frame :
    ∀ (ops : List EncoderOp) (s s1 : AudioEncoderIsacT), applyOps s ops = .ok s1 →
      s.bwinfo_ = s.config_.bwinfo →
      s1.config_ = s.config_ ∧ s1.bwinfo_ = s.bwinfo_ := by
  intro ops
  induction ops with
  | nil =>
    intro s s1 h _
    simp only [applyOps, Except.ok.injEq] at h
    rw [← h]
    exact ⟨rfl, rfl⟩
  | cons op ops ih =>
    intro s s1 h hagree
    cases op with
    | Encode c =>
      simp only [applyOps, EncoderOp.apply] at h
      cases hstep : s.EncodeInternal c.T c.stores c.rtp_timestamp c.audio c.max_encoded_bytes with
      | error e => simp [hstep, Except.map] at h
      | ok res =>
        obtain ⟨s2, info⟩ := res
        simp only [hstep, Except.map] at h
        obtain ⟨hc, hb⟩ := AudioEncoderIsacT.EncodeInternal_ok_frame hstep
        obtain ⟨hc1, hb1⟩ := ih s2 s1 h (by rw [hb, hc]; exact hagree)
        exact ⟨hc1.trans hc, hb1.trans hb⟩
    | Reset T =>
      simp only [applyOps, EncoderOp.apply, AudioEncoderIsacT.Reset] at h
      cases hstep : s.RecreateEncoderInstance T s.config_ with
      | error e => simp [hstep] at h
      | ok s2 =>
        simp only [hstep] at h
        obtain ⟨-, -, hc, hb, -⟩ := AudioEncoderIsacT.RecreateEncoderInstance_ok hstep
        obtain ⟨hc1, hb1⟩ := ih s2 s1 h (by rw [hb, hc])
        exact ⟨hc1.trans hc, hb1.trans (hb.trans hagree.symm)⟩

/-- From an encoder with no packet in progress, a run of calls in which the
engine returns 0 and then a positive count within the buffer size returns and
emits the timestamp of the first call. -/
theorem encodeAll_from_idle (s : AudioEncoderIsacT) (pre : List EncodeCall)
    (last : EncodeCall) (hidle : s.packet_in_progress_ = false)
    (hzero : ∀ c ∈ pre, c.r = 0) (hpos : 0 < last.r)
    (hmax : last.r ≤ (last.max_encoded_bytes : Int)) :
    ∃ s1 info, encodeAll s (pre ++ [last]) =
        .ok (s1, pre.map (fun _ => ({} : EncodedInfo)) ++ [info]) ∧
      some info.encoded_timestamp = ((pre ++ [last]).head?).map (fun c => c.rtp_timestamp) := by
  cases pre with
  | nil =>
    obtain ⟨s1, h1, -⟩ := AudioEncoderIsacT.EncodeInternal_pos last.T last.stores s
      last.rtp_timestamp last.audio last.max_encoded_bytes hpos hmax
    have hrun := encodeAll_cons s last []
    rw [h1] at hrun
    exact ⟨s1, _, hrun, by simp [hidle]⟩
  | cons c cs =>
    obtain ⟨s1, h1, hp1, ht1, -⟩ := AudioEncoderIsacT.EncodeInternal_zero c.T c.stores s
      c.rtp_timestamp c.audio c.max_encoded_bytes (hzero c (List.mem_cons_self c cs))
    obtain ⟨s2, info, h2, ht2⟩ := encodeAll_accumulating last hpos hmax cs s1 hp1
      (fun d hd => hzero d (List.mem_cons_of_mem c hd))
    refine ⟨s2, info, ?_, ?_⟩
    · rw [List.cons_append, encodeAll_cons, h1]
      simp only [h2, List.map_cons, List.cons_append]
    · rw [ht2, ht1]
      simp [hidle]

/-! ## Theorems: (re)configuration of the encoder -/

/-- A valid adaptive configuration has a Store attached. -/
theorem Config.IsOk_adaptive_store {has_swb : Bool} {c : Config}
    (hok : c.IsOk has_swb = true) (hadaptive : c.adaptive_mode = true) :
    ∃ p, c.bwinfo = some p := by
  cases hb : c.bwinfo with
  | some p => exact ⟨p, rfl⟩
  | none =>
    have hbad : c.IsOk has_swb = false := by
      unfold Config.IsOk
      simp [hadaptive, hb]
    rw [hbad] at hok
    cases hok

/-- C11: a configuration that fails `IsOk` ends `RecreateEncoderInstance`, and
so construction, in the fatal check `RTC_CHECK(config.IsOk())` with the object
exactly as it was: no engine call has been issued and `packet_in_progress_`,
`bwinfo_` and `config_` are unmodified. -/
theorem C11_invalid_config_fails_first (T : IsacT) (s : AudioEncoderIsacT) (config : Config)
    (hbad : config.IsOk T.has_swb = false) :
    s.RecreateEncoderInstance T config = .error ⟨.ConfigIsOk, s⟩ ∧
    ∀ pts lts : Nat,
      AudioEncoderIsacT.create T pts lts config =
        .error ⟨.ConfigIsOk,
          { config_ := {}, isac_state_ := false, bwinfo_ := none, packet_in_progress_ := false,
            packet_timestamp_ := pts, last_encoded_timestamp_ := lts, calls := [] }⟩ :=
  ⟨AudioEncoderIsacT.RecreateEncoderInstance_reject T s config hbad,
   fun _ _ => AudioEncoderIsacT.RecreateEncoderInstance_reject T _ config hbad⟩

/-- Witness for C11: reconfiguring an accumulating encoder with a bit rate of
32001 is fatal and leaves the encoder accumulating, with no engine call. -/
theorem C11_invalid_config_fails_first_witness :
    AudioEncoderIsacT.RecreateEncoderInstance (engineReporting [])
        { idleEncoder with packet_in_progress_ := true } { bit_rate := 32001 } =
      .error ⟨.ConfigIsOk, { idleEncoder with packet_in_progress_ := true }⟩ :=
  (C11_invalid_config_fails_first (engineReporting [])
    { idleEncoder with packet_in_progress_ := true } { bit_rate := 32001 } (by decide)).1

/-- C12: `Reset` returns when the stored configuration is valid and the engine
reports success; whenever it returns, no packet is in progress, the stored
configuration is unchanged, and the next emitted unit carries the timestamp of
the first `EncodeInternal` call made after the `Reset`. -/
theorem C12_Reset_discards_packet :
    (∀ (T : IsacT) (s : AudioEncoderIsacT), s.config_.IsOk T.has_swb = true →
      (∀ call, T.ret call = 0) → ∃ s1, s.Reset T = .ok s1) ∧
    (∀ (T : IsacT) (s s1 : AudioEncoderIsacT), s.Reset T = .ok s1 →
      s1.packet_in_progress_ = false ∧ s1.config_ = s.config_ ∧
      ∀ (pre : List EncodeCall) (last : EncodeCall),
        (∀ c ∈ pre, c.r = 0) → 0 < last.r → last.r ≤ (last.max_encoded_bytes : Int) →
        ∃ s2 info, encodeAll s1 (pre ++ [last]) =
            .ok (s2, pre.map (fun _ => ({} : EncodedInfo)) ++ [info]) ∧
          some info.encoded_timestamp =
            ((pre ++ [last]).head?).map (fun c => c.rtp_timestamp)) := by
  constructor
  · intro T s hok hzero
    exact AudioEncoderIsacT.RecreateEncoderInstance_returns T s s.config_ hok hzero
  · intro T s s1 h
    obtain ⟨-, hp, hc, -, -⟩ := AudioEncoderIsacT.RecreateEncoderInstance_ok h
    exact ⟨hp, hc, fun pre last hzero hpos hmax =>
      encodeAll_from_idle s1 pre last hp hzero hpos hmax⟩

/-- Witness for C12: an encoder accumulating a packet whose captured timestamp
is 7 is reset; inputs at 500 and 660 follow, and the unit emitted on the second
carries timestamp 500. -/
theorem C12_Reset_discards_packet_witness :
    ∃ s1, AudioEncoderIsacT.Reset (engineReporting [])
        { idleEncoder with packet_in_progress_ := true } = .ok s1 ∧
      ∃ s2 info, encodeAll s1 [tenMsCall 500 0, tenMsCall 660 50] =
          .ok (s2, [({} : EncodedInfo), info]) ∧
        some info.encoded_timestamp = some 500 :=
  ⟨_, rfl,
    (C12_Reset_discards_packet.2 (engineReporting [])
      { idleEncoder with packet_in_progress_ := true } _ rfl).2.2
      [tenMsCall 500 0] (tenMsCall 660 50)
      (by simp [EncodeCall.r, tenMsCall, engineReturning]) (by decide) (by decide)⟩

/-- C13: on an encoder constructed from an adaptive configuration (valid, as
construction returned) and then used for any `Encode` and `Reset` operations,
every `EncodeInternal` call pushes the value the attached Store holds during
that call with `SetBandwidthInfo` and only then calls `Encode`. -/
theorem C13_store_pushed_on_every_call (T0 : IsacT) (pts lts : Nat) (config : Config)
    (ops : List EncoderOp) (s0 s : AudioEncoderIsacT)
    (hadaptive : config.adaptive_mode = true)
    (hcreate : AudioEncoderIsacT.create T0 pts lts config = .ok s0)
    (hops : applyOps s0 ops = .ok s)
    (T : IsacT) (stores : Stores) (rtp_timestamp : Nat) (audio : List Int)
    (max_encoded_bytes : Nat) :
    ∃ p, config.bwinfo = some p ∧
      (objectAfter (s.EncodeInternal T stores rtp_timestamp audio max_encoded_bytes)).calls =
        s.calls ++ [EngineCall.SetBandwidthInfo (stores p).Get, EngineCall.Encode audio] ++
          (if T.ret (.Encode audio) < 0 then [EngineCall.GetErrorCode] else []) := by
  obtain ⟨hok, -, hc, hb, -⟩ := AudioEncoderIsacT.RecreateEncoderInstance_ok hcreate
  obtain ⟨p, hp⟩ := Config.IsOk_adaptive_store hok hadaptive
  obtain ⟨-, hb1⟩ := applyOps_frame ops s0 s hops (by rw [hb, hc])
  have hsb : s.bwinfo_ = some p := by rw [hb1, hb, hp]
  refine ⟨p, hp, ?_⟩
  rw [AudioEncoderIsacT.EncodeInternal_calls, hsb]
  simp

/-- Witness for C13: the Store holds `[1]` at construction and during the first
input and `[2]` during the second; the second call pushes `[2]`. -/
theorem C13_store_pushed_on_every_call_witness :
    ∃ s0 s, AudioEncoderIsacT.create (engineReporting []) 0 0 adaptiveConfig = .ok s0 ∧
      applyOps s0 [.Encode { tenMsCall 0 0 with stores := storesHolding 1 }] = .ok s ∧
      ∃ p, adaptiveConfig.bwinfo = some p ∧
        (objectAfter (s.EncodeInternal (engineReturning 0) (storesHolding 2) 160 [] 400)).calls =
          s.calls ++ [EngineCall.SetBandwidthInfo ((storesHolding 2) p).Get,
            EngineCall.Encode []] ++
            (if (engineReturning 0).ret (.Encode []) < 0 then [EngineCall.GetErrorCode]
              else []) :=
  ⟨_, _, rfl, rfl,
    C13_store_pushed_on_every_call (engineReporting []) 0 0 adaptiveConfig
      [.Encode { tenMsCall 0 0 with stores := storesHolding 1 }] _ _ rfl rfl rfl
      (engineReturning 0) (storesHolding 2) 160 [] 400⟩

/-- C20: with a valid configuration and an engine that reports success,
`RecreateEncoderInstance` returns; whenever it returns, the calls it issued
contain, among `EncoderInit`, `Control` and `ControlBwe`, exactly
`EncoderInit(0)` then `ControlBwe(b, frame_size_ms, enforce_frame_size)` in
adaptive mode and exactly `EncoderInit(1)` then `Control(b, frame_size_ms)`
otherwise, where `b` is 32000 for a bit rate of 0 and the bit rate otherwise. -/
theorem C20_control_path :
    (∀ (T : IsacT) (s : AudioEncoderIsacT) (config : Config),
      config.IsOk T.has_swb = true → (∀ call, T.ret call = 0) →
      ∃ s1, s.RecreateEncoderInstance T config = .ok s1) ∧
    (∀ (T : IsacT) (s s1 : AudioEncoderIsacT) (config : Config),
      s.RecreateEncoderInstance T config = .ok s1 →
      ∃ issued, s1.calls = s.calls ++ issued ∧
        (config.adaptive_mode = true →
          issued.filter (fun c => c.isEncoderInit || c.isControl || c.isControlBwe) =
            [EngineCall.EncoderInit 0,
             EngineCall.ControlBwe (if config.bit_rate = 0 then 32000 else config.bit_rate)
               config.frame_size_ms config.enforce_frame_size]) ∧
        (config.adaptive_mode = false →
          issued.filter (fun c => c.isEncoderInit || c.isControl || c.isControlBwe) =
            [EngineCall.EncoderInit 1,
             EngineCall.Control (if config.bit_rate = 0 then 32000 else config.bit_rate)
               config.frame_size_ms])) := by
  constructor
  · intro T s config hok hzero
    exact AudioEncoderIsacT.RecreateEncoderInstance_returns T s config hok hzero
  · intro T s s1 config h
    refine ⟨_, AudioEncoderIsacT.RecreateEncoderInstance_calls h, ?_, ?_⟩
    · intro hadaptive
      unfold AudioEncoderIsacT.recreateCalls
      cases s.isac_state_ <;>
        by_cases h1 : config.max_payload_size_bytes = -1 <;>
        by_cases h2 : config.max_bit_rate = -1 <;>
        simp [hadaptive, h1, h2, kDefaultBitRate, EngineCall.isEncoderInit,
          EngineCall.isControl, EngineCall.isControlBwe]
    · intro hfixed
      unfold AudioEncoderIsacT.recreateCalls
      cases s.isac_state_ <;>
        by_cases h1 : config.max_payload_size_bytes = -1 <;>
        by_cases h2 : config.max_bit_rate = -1 <;>
        simp [hfixed, h1, h2, kDefaultBitRate, EngineCall.isEncoderInit,
          EngineCall.isControl, EngineCall.isControlBwe]

/-- Witness for C20: the adaptive configuration with bit rate 0 and a locked
frame size, on an encoder that already owns an engine instance. -/
theorem C20_control_path_witness :
    ∃ s1 issued,
      AudioEncoderIsacT.RecreateEncoderInstance (engineReporting []) idleEncoder
        { adaptiveConfig with bit_rate := 0, enforce_frame_size := true } = .ok s1 ∧
      s1.calls = idleEncoder.calls ++ issued ∧
      issued.filter (fun c => c.isEncoderInit || c.isControl || c.isControlBwe) =
        [EngineCall.EncoderInit 0, EngineCall.ControlBwe 32000 30 true] := by
  have h := C20_control_path.2 (engineReporting []) idleEncoder _
    { adaptiveConfig with bit_rate := 0, enforce_frame_size := true } rfl
  obtain ⟨issued, hcalls, hadaptive, -⟩ := h
  exact ⟨_, issued, rfl, hcalls, hadaptive rfl⟩

/-! ## Lemmas: the decoder adapter -/

namespace AudioDecoderIsacT

/-- A request for a rate other than 16000, 32000 and 48000 ends
`DecodeInternal` in its first check, with the object as it was. -/
theorem DecodeInternal_unsupported {SpeechType : Type} (ConvertSpeechType : Int → SpeechType)
    (T : IsacT) (s : AudioDecoderIsacT) (encoded : List Nat) (sample_rate_hz : Int)
    (h16 : sample_rate_hz ≠ 16000) (h32 : sample_rate_hz ≠ 32000)
    (h48 : sample_rate_hz ≠ 48000) :
    s.DecodeInternal ConvertSpeechType T encoded sample_rate_hz =
      .error ⟨.UnsupportedSampleRate sample_rate_hz, s⟩ := by
  simp [DecodeInternal, h16, h32, h48, throw, throwThe, MonadExceptOf.throw, bind,
    Except.bind]

/-- What `DecodeInternal` does for a supported rate. -/
theorem DecodeInternal_supported {SpeechType : Type} (ConvertSpeechType : Int → SpeechType)
    (T : IsacT) (s : AudioDecoderIsacT) (encoded : List Nat) (sample_rate_hz : Int)
    (hrate : sample_rate_hz = 16000 ∨ sample_rate_hz = 32000 ∨ sample_rate_hz = 48000) :
    s.DecodeInternal ConvertSpeechType T encoded sample_rate_hz =
      if effectiveRate sample_rate_hz = s.decoder_sample_rate_hz_ then
        .ok ({ s with calls := s.calls ++ [EngineCall.DecodeInternal encoded] },
             T.ret (.DecodeInternal encoded), ConvertSpeechType (T.speech_type 1))
      else if T.ret (.SetDecSampRate (effectiveRate sample_rate_hz)) = 0 then
        .ok ({ s with decoder_sample_rate_hz_ := effectiveRate sample_rate_hz,
                      calls := s.calls ++
                        [EngineCall.SetDecSampRate (effectiveRate sample_rate_hz),
                         EngineCall.DecodeInternal encoded] },
             T.ret (.DecodeInternal encoded), ConvertSpeechType (T.speech_type 1))
      else
        .error ⟨.EngineStatus (.SetDecSampRate (effectiveRate sample_rate_hz))
                  (T.ret (.SetDecSampRate (effectiveRate sample_rate_hz))),
                { s with calls := s.calls ++
                    [EngineCall.SetDecSampRate (effectiveRate sample_rate_hz)] }⟩ := by
  rcases s with ⟨ist, bw, cur, calls⟩
  rcases hrate with rfl | rfl | rfl
  · by_cases hcur : (16000 : Int) = cur
    · subst hcur
      simp [DecodeInternal, effectiveRate, bind, Except.bind, pure, Except.pure]
    · by_cases hs : T.ret (.SetDecSampRate 16000) = 0 <;>
        simp [DecodeInternal, RTC_CHECK_EQ_0, effectiveRate, bind, Except.bind, pure,
          Except.pure, Except.map, hcur, hs]
  · by_cases hcur : (32000 : Int) = cur
    · subst hcur
      simp [DecodeInternal, effectiveRate, bind, Except.bind, pure, Except.pure]
    · by_cases hs : T.ret (.SetDecSampRate 32000) = 0 <;>
        simp [DecodeInternal, RTC_CHECK_EQ_0, effectiveRate, bind, Except.bind, pure,
          Except.pure, Except.map, hcur, hs]
  · by_cases hcur : (32000 : Int) = cur
    · subst hcur
      simp [DecodeInternal, effectiveRate, bind, Except.bind, pure, Except.pure]
    · by_cases hs : T.ret (.SetDecSampRate 32000) = 0 <;>
        simp [DecodeInternal, RTC_CHECK_EQ_0, effectiveRate, bind, Except.bind, pure,
          Except.pure, Except.map, hcur, hs]

/-- A call of `DecodeInternal` that returns was for a supported rate, leaves
that effective rate active, and has issued `SetDecSampRate` only if the active
rate was different. -/
theorem DecodeInternal_ok {SpeechType : Type} {ConvertSpeechType : Int → SpeechType}
    {T : IsacT} {s s1 : AudioDecoderIsacT} {encoded : List Nat} {sample_rate_hz : Int}
    {res : Int × SpeechType}
    (h : s.DecodeInternal ConvertSpeechType T encoded sample_rate_hz = .ok (s1, res)) :
    (sample_rate_hz = 16000 ∨ sample_rate_hz = 32000 ∨ sample_rate_hz = 48000) ∧
      s1.decoder_sample_rate_hz_ = effectiveRate sample_rate_hz ∧
      s1.bwinfo_ = s.bwinfo_ ∧
      s1.calls = s.calls ++
        (if effectiveRate sample_rate_hz = s.decoder_sample_rate_hz_ then []
          else [EngineCall.SetDecSampRate (effectiveRate sample_rate_hz)]) ++
        [EngineCall.DecodeInternal encoded] := by
  by_cases hrate : sample_rate_hz = 16000 ∨ sample_rate_hz = 32000 ∨ sample_rate_hz = 48000
  · refine ⟨hrate, ?_⟩
    rw [DecodeInternal_supported ConvertSpeechType T s encoded sample_rate_hz hrate] at h
    split_ifs at h with hcur hs
    · simp only [Except.ok.injEq, Prod.mk.injEq] at h
      rw [← h.1]
      simp [hcur]
    · simp only [Except.ok.injEq, Prod.mk.injEq] at h
      rw [← h.1]
      simp [hcur]
  · simp only [not_or] at hrate
    rw [DecodeInternal_unsupported ConvertSpeechType T s encoded sample_rate_hz hrate.1
      hrate.2.1 hrate.2.2] at h
    cases h

/-- What the constructor leaves when it returns. -/
theorem create_ok {T : IsacT} {stores stores1 : Stores} {bwinfo : Option Nat}
    {s : AudioDecoderIsacT} (h : create T stores bwinfo = .ok (s, stores1)) :
    s.decoder_sample_rate_hz_ = -1 ∧ s.bwinfo_ = bwinfo ∧
      stores1 =
        bwinfo.elim stores
          (fun p => Function.update stores p ((stores p).Set T.GetBandwidthInfo)) := by
  unfold create at h
  by_cases h0 : T.ret .Create = 0
  · cases bwinfo <;>
      simp [RTC_CHECK_EQ_0, h0, bind, Except.bind, pure, Except.pure] at h <;>
      obtain ⟨rfl, rfl⟩ := h <;> simp
  · cases bwinfo <;> simp [RTC_CHECK_EQ_0, h0, bind, Except.bind, pure, Except.pure] at h

end AudioDecoderIsacT

/-- Unfolding of `decodeAll` at a nonempty list. -/
theorem decodeAll_cons {SpeechType : Type} (ConvertSpeechType : Int → SpeechType)
    (s : AudioDecoderIsacT) (c : DecodeCall) (cs : List DecodeCall) :
    decodeAll ConvertSpeechType s (c :: cs) =
      match s.DecodeInternal ConvertSpeechType c.T c.encoded c.sample_rate_hz with
      | .error e => .error e
      | .ok (s1, res) =>
        match decodeAll ConvertSpeechType s1 cs with
        | .error e => .error e
        | .ok (s2, ress) => .ok (s2, res :: ress) := rfl

/-- A run of decodes at the effective rate that is already active issues no
`SetDecSampRate`. -/
theorem decodeAll_same_rate {SpeechType : Type} (ConvertSpeechType : Int → SpeechType)
    (rate : Int) :
    ∀ (cs : List DecodeCall) (s s1 : AudioDecoderIsacT) (ress : List (Int × SpeechType)),
      (∀ c ∈ cs, effectiveRate c.sample_rate_hz = rate) →
      s.decoder_sample_rate_hz_ = rate →
      decodeAll ConvertSpeechType s cs = .ok (s1, ress) →
      ∃ issued, s1.calls = s.calls ++ issued ∧
        issued.countP EngineCall.isSetDecSampRate = 0 := by
  intro cs
  induction cs with
  | nil =>
    intro s s1 ress _ _ h
    simp only [decodeAll, Except.ok.injEq, Prod.mk.injEq] at h
    exact ⟨[], by rw [← h.1]; simp, rfl⟩
  | cons c cs ih =>
    intro s s1 ress hall hcur h
    rw [decodeAll_cons] at h
    cases hstep : s.DecodeInternal ConvertSpeechType c.T c.encoded c.sample_rate_hz with
    | error e => simp [hstep] at h
    | ok r =>
      obtain ⟨s2, res⟩ := r
      simp only [hstep] at h
      cases hrest : decodeAll ConvertSpeechType s2 cs with
      | error e => simp [hrest] at h
      | ok r2 =>
        obtain ⟨s3, ress2⟩ := r2
        simp only [hrest, Except.ok.injEq, Prod.mk.injEq] at h
        obtain ⟨-, hc2, -, hcalls2⟩ := AudioDecoderIsacT.DecodeInternal_ok hstep
        have hc : effectiveRate c.sample_rate_hz = rate :=
          hall c (List.mem_cons_self c cs)
        obtain ⟨issued, hi, hcount⟩ := ih s2 s3 ress2
          (fun d hd => hall d (List.mem_cons_of_mem c hd)) (hc2.trans hc) hrest
        refine ⟨[EngineCall.DecodeInternal c.encoded] ++ issued, ?_, ?_⟩
        · rw [← h.1, hi, hcalls2]
          simp [hc, hcur]
        · simp [List.countP_cons, hcount, EngineCall.isSetDecSampRate]

/-! ## Theorems: the decoder adapter and the Store -/

/-- C14: `IncomingPacket` calls `UpdateBwEstimate` with the given payload,
sequence number and timestamps and returns its status. With a Store attached it
then reads the engine's estimate and sets the Store to it, so that an encoder
sharing the Store pushes that estimate on its next `EncodeInternal` call; with
no Store attached nothing is published. -/
theorem C14_IncomingPacket_publishes (T : IsacT) (stores : Stores) (s : AudioDecoderIsacT)
    (payload : List Nat) (rtp_sequence_number rtp_timestamp arrival_timestamp : Nat) :
    (∀ p, s.bwinfo_ = some p →
      s.IncomingPacket T stores payload rtp_sequence_number rtp_timestamp arrival_timestamp =
        ({ s with calls := s.calls ++
            [EngineCall.UpdateBwEstimate payload rtp_sequence_number rtp_timestamp
               arrival_timestamp, EngineCall.GetBandwidthInfo] },
         Function.update stores p { bwinfo_ := T.GetBandwidthInfo },
         T.ret (.UpdateBwEstimate payload rtp_sequence_number rtp_timestamp
           arrival_timestamp)) ∧
      ((Function.update stores p { bwinfo_ := T.GetBandwidthInfo }) p).Get =
        T.GetBandwidthInfo ∧
      ∀ (Te : IsacT) (e : AudioEncoderIsacT) (ts : Nat) (audio : List Int) (max : Nat),
        e.bwinfo_ = some p →
        (objectAfter (e.EncodeInternal Te
            (s.IncomingPacket T stores payload rtp_sequence_number rtp_timestamp
              arrival_timestamp).2.1 ts audio max)).calls =
          e.calls ++ [EngineCall.SetBandwidthInfo T.GetBandwidthInfo,
            EngineCall.Encode audio] ++
            (if Te.ret (.Encode audio) < 0 then [EngineCall.GetErrorCode] else [])) ∧
    (s.bwinfo_ = none →
      s.IncomingPacket T stores payload rtp_sequence_number rtp_timestamp arrival_timestamp =
        ({ s with calls := s.calls ++
            [EngineCall.UpdateBwEstimate payload rtp_sequence_number rtp_timestamp
               arrival_timestamp] },
         stores,
         T.ret (.UpdateBwEstimate payload rtp_sequence_number rtp_timestamp
           arrival_timestamp))) := by
  rcases s with ⟨ist, bw, cur, calls⟩
  constructor
  · intro p hp
    simp only at hp
    subst hp
    refine ⟨?_, ?_, ?_⟩
    · simp [AudioDecoderIsacT.IncomingPacket, LockedIsacBandwidthInfo.Set]
    · simp [LockedIsacBandwidthInfo.Get]
    · intro Te e ts audio max he
      rw [AudioEncoderIsacT.EncodeInternal_calls, he]
      simp [AudioDecoderIsacT.IncomingPacket, LockedIsacBandwidthInfo.Set,
        LockedIsacBandwidthInfo.Get]
  · intro hnone
    simp only at hnone
    subst hnone
    simp [AudioDecoderIsacT.IncomingPacket]

/-- Witness for C14: a decoder attached to the Store at address 0, which holds
`[1]`, receives a packet while the engine's estimate is `[9]`; the status 0 is
returned, the Store holds `[9]`, and a decoder without a Store publishes
nothing. -/
theorem C14_IncomingPacket_publishes_witness :
    AudioDecoderIsacT.IncomingPacket (engineReporting [9]) (storesHolding 1)
        { freshDecoder with bwinfo_ := some 0 } [1, 2] 5 160 170 =
      ({ freshDecoder with
          bwinfo_ := some 0,
          calls := freshDecoder.calls ++
            [EngineCall.UpdateBwEstimate [1, 2] 5 160 170, EngineCall.GetBandwidthInfo] },
       Function.update (storesHolding 1) 0 { bwinfo_ := { blob := [9] } }, 0) ∧
    AudioDecoderIsacT.IncomingPacket (engineReporting [9]) (storesHolding 1) freshDecoder
        [1, 2] 5 160 170 =
      ({ freshDecoder with
          calls := freshDecoder.calls ++ [EngineCall.UpdateBwEstimate [1, 2] 5 160 170] },
       storesHolding 1, 0) :=
  ⟨((C14_IncomingPacket_publishes (engineReporting [9]) (storesHolding 1)
      { freshDecoder with bwinfo_ := some 0 } [1, 2] 5 160 170).1 0 rfl).1,
   (C14_IncomingPacket_publishes (engineReporting [9]) (storesHolding 1) freshDecoder
      [1, 2] 5 160 170).2 rfl⟩

/-- C15 (as stated) fails for construction: a decoder constructed with the
Store at address 0, which holds `[1]`, while the engine's estimate is `[9]`,
leaves `[9]` in that Store. -/
theorem C15_counterexample_constructor_writes_store :
    ∃ s stores1,
      AudioDecoderIsacT.create (engineReporting [9]) (storesHolding 1) (some 0) =
        .ok (s, stores1) ∧
      ((storesHolding 1) 0).Get = { blob := [1] } ∧
      (stores1 0).Get = { blob := [9] } ∧
      (stores1 0).Get ≠ ((storesHolding 1) 0).Get :=
  ⟨_, _, rfl, rfl, rfl, by decide⟩

/-- C15 (as amended): `DecodeInternal`, `DecodePlc`, `Reset`, `ErrorCode` and
`Channels` leave the Store memory as it was, and `IncomingPacket` changes at
most the attached Store; construction with a Store sets that Store to the
engine's estimate and leaves every other Store as it was, and construction
without a Store leaves the memory as it was. -/
theorem C15_store_write_paths :
    (∀ {SpeechType : Type} (ConvertSpeechType : Int → SpeechType) (stores stores1 : Stores)
      (s s1 : AudioDecoderIsacT) (op : DecoderOp),
      op.apply ConvertSpeechType stores s = .ok (s1, stores1) →
      (op.isIncomingPacket = false → stores1 = stores) ∧
      (∀ q, s.bwinfo_ ≠ some q → stores1 q = stores q)) ∧
    (∀ (T : IsacT) (stores stores1 : Stores) (bwinfo : Option Nat) (s : AudioDecoderIsacT),
      AudioDecoderIsacT.create T stores bwinfo = .ok (s, stores1) →
      (∀ p, bwinfo = some p → (stores1 p).Get = T.GetBandwidthInfo) ∧
      (∀ q, bwinfo ≠ some q → stores1 q = stores q) ∧
      (bwinfo = none → stores1 = stores)) := by
  constructor
  · intro SpeechType ConvertSpeechType stores stores1 s s1 op h
    cases op with
    | DecodeInternal T encoded sample_rate_hz =>
      simp only [DecoderOp.apply] at h
      cases hd : s.DecodeInternal ConvertSpeechType T encoded sample_rate_hz with
      | error e => simp [hd, Except.map] at h
      | ok res =>
        simp only [hd, Except.map, Except.ok.injEq, Prod.mk.injEq] at h
        exact ⟨fun _ => h.2.symm, fun q _ => by rw [← h.2]⟩
    | DecodePlc T num_frames =>
      simp only [DecoderOp.apply, Except.ok.injEq, Prod.mk.injEq] at h
      exact ⟨fun _ => h.2.symm, fun q _ => by rw [← h.2]⟩
    | Reset =>
      simp only [DecoderOp.apply, Except.ok.injEq, Prod.mk.injEq] at h
      exact ⟨fun _ => h.2.symm, fun q _ => by rw [← h.2]⟩
    | ErrorCode T =>
      simp only [DecoderOp.apply, Except.ok.injEq, Prod.mk.injEq] at h
      exact ⟨fun _ => h.2.symm, fun q _ => by rw [← h.2]⟩
    | Channels =>
      simp only [DecoderOp.apply, Except.ok.injEq, Prod.mk.injEq] at h
      exact ⟨fun _ => h.2.symm, fun q _ => by rw [← h.2]⟩
    | IncomingPacket T payload rtp_sequence_number rtp_timestamp arrival_timestamp =>
      simp only [DecoderOp.apply, Except.ok.injEq, Prod.mk.injEq] at h
      refine ⟨fun hno => by simp [DecoderOp.isIncomingPacket] at hno, ?_⟩
      intro q hq
      rw [← h.2]
      rcases s with ⟨ist, bw, cur, calls⟩
      cases bw with
      | none => simp [AudioDecoderIsacT.IncomingPacket]
      | some p =>
        have hpq : q ≠ p := fun hqp => hq (by rw [hqp])
        simp [AudioDecoderIsacT.IncomingPacket, Function.update, hpq]
  · intro T stores stores1 bwinfo s h
    obtain ⟨-, -, hst⟩ := AudioDecoderIsacT.create_ok h
    subst hst
    refine ⟨?_, ?_, ?_⟩
    · intro p hp
      subst hp
      simp [LockedIsacBandwidthInfo.Get, LockedIsacBandwidthInfo.Set]
    · intro q hq
      cases bwinfo with
      | none => rfl
      | some p =>
        have hpq : q ≠ p := fun hqp => hq (by rw [hqp])
        simp [Function.update, hpq]
    · intro hnone
      subst hnone
      rfl

/-- Witness for C15 (as amended): a decode at 16000 Hz on a decoder attached to
the Store at address 0 leaves the memory as it was. -/
theorem C15_store_write_paths_witness :
    ∃ s1 stores1,
      DecoderOp.apply (fun t : Int => t) (storesHolding 1)
        { freshDecoder with bwinfo_ := some 0 }
        (.DecodeInternal (engineDecoding 160) [1, 2, 3] 16000) = .ok (s1, stores1) ∧
      stores1 = storesHolding 1 :=
  ⟨_, _, rfl,
    ((C15_store_write_paths.1 (fun t : Int => t) (storesHolding 1) _
      { freshDecoder with bwinfo_ := some 0 } _
      (.DecodeInternal (engineDecoding 160) [1, 2, 3] 16000) rfl).1 rfl)⟩

/-- C16: for a supported rate `DecodeInternal` issues `SetDecSampRate` exactly
when the effective requested rate differs from the active one; when it returns,
the active rate is the effective requested rate; the first decode after
construction reconfigures; and a run of decodes at one effective rate issues
`SetDecSampRate` at most once. -/
theorem C16_reconfigures_only_on_rate_change :
    (∀ {SpeechType : Type} (ConvertSpeechType : Int → SpeechType) (T : IsacT)
      (s : AudioDecoderIsacT) (encoded : List Nat) (sample_rate_hz : Int),
      sample_rate_hz = 16000 ∨ sample_rate_hz = 32000 ∨ sample_rate_hz = 48000 →
      (objectAfter (s.DecodeInternal ConvertSpeechType T encoded sample_rate_hz)).calls =
        s.calls ++
          (if effectiveRate sample_rate_hz = s.decoder_sample_rate_hz_ then []
            else [EngineCall.SetDecSampRate (effectiveRate sample_rate_hz)]) ++
          (if effectiveRate sample_rate_hz ≠ s.decoder_sample_rate_hz_ ∧
              T.ret (.SetDecSampRate (effectiveRate sample_rate_hz)) ≠ 0 then []
            else [EngineCall.DecodeInternal encoded])) ∧
    (∀ {SpeechType : Type} (ConvertSpeechType : Int → SpeechType) (T : IsacT)
      (s s1 : AudioDecoderIsacT) (encoded : List Nat) (sample_rate_hz : Int)
      (res : Int × SpeechType),
      s.DecodeInternal ConvertSpeechType T encoded sample_rate_hz = .ok (s1, res) →
      s1.decoder_sample_rate_hz_ = effectiveRate sample_rate_hz) ∧
    (∀ {SpeechType : Type} (ConvertSpeechType : Int → SpeechType) (T0 T : IsacT)
      (stores stores0 : Stores) (bwinfo : Option Nat) (s0 : AudioDecoderIsacT)
      (encoded : List Nat) (sample_rate_hz : Int),
      AudioDecoderIsacT.create T0 stores bwinfo = .ok (s0, stores0) →
      sample_rate_hz = 16000 ∨ sample_rate_hz = 32000 ∨ sample_rate_hz = 48000 →
      (objectAfter (s0.DecodeInternal ConvertSpeechType T encoded sample_rate_hz)).calls =
        s0.calls ++ [EngineCall.SetDecSampRate (effectiveRate sample_rate_hz)] ++
          (if T.ret (.SetDecSampRate (effectiveRate sample_rate_hz)) ≠ 0 then []
            else [EngineCall.DecodeInternal encoded])) ∧
    (∀ {SpeechType : Type} (ConvertSpeechType : Int → SpeechType) (rate : Int)
      (cs : List DecodeCall) (s s1 : AudioDecoderIsacT) (ress : List (Int × SpeechType)),
      (∀ c ∈ cs, effectiveRate c.sample_rate_hz = rate) →
      decodeAll ConvertSpeechType s cs = .ok (s1, ress) →
      ∃ issued, s1.calls = s.calls ++ issued ∧
        issued.countP EngineCall.isSetDecSampRate ≤ 1) := by
  have hsingle : ∀ {SpeechType : Type} (ConvertSpeechType : Int → SpeechType) (T : IsacT)
      (s : AudioDecoderIsacT) (encoded : List Nat) (sample_rate_hz : Int),
      sample_rate_hz = 16000 ∨ sample_rate_hz = 32000 ∨ sample_rate_hz = 48000 →
      (objectAfter (s.DecodeInternal ConvertSpeechType T encoded sample_rate_hz)).calls =
        s.calls ++
          (if effectiveRate sample_rate_hz = s.decoder_sample_rate_hz_ then []
            else [EngineCall.SetDecSampRate (effectiveRate sample_rate_hz)]) ++
          (if effectiveRate sample_rate_hz ≠ s.decoder_sample_rate_hz_ ∧
              T.ret (.SetDecSampRate (effectiveRate sample_rate_hz)) ≠ 0 then []
            else [EngineCall.DecodeInternal encoded]) := by
    intro SpeechType ConvertSpeechType T s encoded sample_rate_hz hrate
    rw [AudioDecoderIsacT.DecodeInternal_supported ConvertSpeechType T s encoded
      sample_rate_hz hrate]
    split_ifs with hcur hs <;> simp_all [objectAfter]
  refine ⟨hsingle, ?_, ?_, ?_⟩
  · intro SpeechType ConvertSpeechType T s s1 encoded sample_rate_hz res h
    exact (AudioDecoderIsacT.DecodeInternal_ok h).2.1
  · intro SpeechType ConvertSpeechType T0 T stores stores0 bwinfo s0 encoded sample_rate_hz
      hcreate hrate
    obtain ⟨hfresh, -, -⟩ := AudioDecoderIsacT.create_ok hcreate
    have hne : effectiveRate sample_rate_hz ≠ s0.decoder_sample_rate_hz_ := by
      rw [hfresh]
      rcases hrate with h | h | h <;> rw [h] <;> decide
    rw [hsingle ConvertSpeechType T s0 encoded sample_rate_hz hrate]
    simp [hne]
  · intro SpeechType ConvertSpeechType rate cs s s1 ress hall h
    cases cs with
    | nil =>
      simp only [decodeAll, Except.ok.injEq, Prod.mk.injEq] at h
      exact ⟨[], by rw [← h.1]; simp, by simp⟩
    | cons c cs =>
      rw [decodeAll_cons] at h
      cases hstep : s.DecodeInternal ConvertSpeechType c.T c.encoded c.sample_rate_hz with
      | error e => simp [hstep] at h
      | ok r =>
        obtain ⟨s2, res⟩ := r
        simp only [hstep] at h
        cases hrest : decodeAll ConvertSpeechType s2 cs with
        | error e => simp [hrest] at h
        | ok r2 =>
          obtain ⟨s3, ress2⟩ := r2
          simp only [hrest, Except.ok.injEq, Prod.mk.injEq] at h
          obtain ⟨-, hc2, -, hcalls2⟩ := AudioDecoderIsacT.DecodeInternal_ok hstep
          have hc : effectiveRate c.sample_rate_hz = rate :=
            hall c (List.mem_cons_self c cs)
          obtain ⟨issued, hi, hcount⟩ := decodeAll_same_rate ConvertSpeechType rate cs s2 s3
            ress2 (fun d hd => hall d (List.mem_cons_of_mem c hd)) (hc2.trans hc) hrest
          refine ⟨(if effectiveRate c.sample_rate_hz = s.decoder_sample_rate_hz_ then []
              else [EngineCall.SetDecSampRate (effectiveRate c.sample_rate_hz)]) ++
            [EngineCall.DecodeInternal c.encoded] ++ issued, ?_, ?_⟩
          · rw [← h.1, hi, hcalls2]
            simp
          · split_ifs <;>
              simp [List.countP_cons, List.countP_append, hcount,
                EngineCall.isSetDecSampRate]

/-- Witness for C16: a fresh decoder decodes at 48000 Hz, at 32000 Hz and at
48000 Hz again; `SetDecSampRate(32000)` is issued once, before the first
decode. -/
theorem C16_reconfigures_only_on_rate_change_witness :
    ∃ s1 ress issued,
      decodeAll (fun t : Int => t) freshDecoder
        [{ T := engineDecoding 480, encoded := [1], sample_rate_hz := 48000 },
         { T := engineDecoding 480, encoded := [2], sample_rate_hz := 32000 },
         { T := engineDecoding 480, encoded := [3], sample_rate_hz := 48000 }] =
        .ok (s1, ress) ∧
      s1.calls = freshDecoder.calls ++ issued ∧
      issued.countP EngineCall.isSetDecSampRate ≤ 1 ∧
      s1.calls = [EngineCall.Create, EngineCall.DecoderInit, EngineCall.SetDecSampRate 32000,
        EngineCall.DecodeInternal [1], EngineCall.DecodeInternal [2],
        EngineCall.DecodeInternal [3]] := by
  have h := C16_reconfigures_only_on_rate_change.2.2.2 (fun t : Int => t) 32000
    [{ T := engineDecoding 480, encoded := [1], sample_rate_hz := 48000 },
     { T := engineDecoding 480, encoded := [2], sample_rate_hz := 32000 },
     { T := engineDecoding 480, encoded := [3], sample_rate_hz := 48000 }]
    freshDecoder _ _ (by simp [effectiveRate]) rfl
  obtain ⟨issued, hcalls, hcount⟩ := h
  exact ⟨_, _, issued, rfl, hcalls, hcount, rfl⟩

/-- C17: a request for 48000 Hz is the same call as a request for 32000 Hz; a
48000 request that follows a 32000 request issues no `SetDecSampRate`; and a
request for any rate other than 16000, 32000 and 48000 ends in a fatal check
with the object as it was, so that neither `SetDecSampRate` nor the engine's
decode has been called. -/
theorem C17_sample_rate_alias :
    (∀ {SpeechType : Type} (ConvertSpeechType : Int → SpeechType) (T : IsacT)
      (s : AudioDecoderIsacT) (encoded : List Nat),
      s.DecodeInternal ConvertSpeechType T encoded 48000 =
        s.DecodeInternal ConvertSpeechType T encoded 32000) ∧
    (∀ {SpeechType : Type} (ConvertSpeechType : Int → SpeechType) (T1 T2 : IsacT)
      (s s1 : AudioDecoderIsacT) (encoded1 encoded2 : List Nat) (res1 : Int × SpeechType),
      s.DecodeInternal ConvertSpeechType T1 encoded1 32000 = .ok (s1, res1) →
      s1.DecodeInternal ConvertSpeechType T2 encoded2 48000 =
        .ok ({ s1 with calls := s1.calls ++ [EngineCall.DecodeInternal encoded2] },
             T2.ret (.DecodeInternal encoded2), ConvertSpeechType (T2.speech_type 1))) ∧
    (∀ {SpeechType : Type} (ConvertSpeechType : Int → SpeechType) (T : IsacT)
      (s : AudioDecoderIsacT) (encoded : List Nat) (sample_rate_hz : Int),
      sample_rate_hz ≠ 16000 → sample_rate_hz ≠ 32000 → sample_rate_hz ≠ 48000 →
      s.DecodeInternal ConvertSpeechType T encoded sample_rate_hz =
        .error ⟨.UnsupportedSampleRate sample_rate_hz, s⟩) := by
  refine ⟨?_, ?_, ?_⟩
  · intro SpeechType ConvertSpeechType T s encoded
    rw [AudioDecoderIsacT.DecodeInternal_supported ConvertSpeechType T s encoded 48000
        (Or.inr (Or.inr rfl)),
      AudioDecoderIsacT.DecodeInternal_supported ConvertSpeechType T s encoded 32000
        (Or.inr (Or.inl rfl))]
    rfl
  · intro SpeechType ConvertSpeechType T1 T2 s s1 encoded1 encoded2 res1 h
    obtain ⟨-, hcur, -, -⟩ := AudioDecoderIsacT.DecodeInternal_ok h
    rw [AudioDecoderIsacT.DecodeInternal_supported ConvertSpeechType T2 s1 encoded2 48000
      (Or.inr (Or.inr rfl))]
    have heq : effectiveRate 48000 = s1.decoder_sample_rate_hz_ := by
      rw [hcur]
      rfl
    simp [heq]
  · intro SpeechType ConvertSpeechType T s encoded sample_rate_hz h16 h32 h48
    exact AudioDecoderIsacT.DecodeInternal_unsupported ConvertSpeechType T s encoded
      sample_rate_hz h16 h32 h48

/-- Witness for C17: after a decode at 32000 Hz a decode at 48000 Hz only calls
the engine's decode, and a request for 8000 Hz is fatal with no call. -/
theorem C17_sample_rate_alias_witness :
    (∃ s1 res1,
      AudioDecoderIsacT.DecodeInternal (fun t : Int => t) (engineDecoding 480) freshDecoder
        [1] 32000 = .ok (s1, res1) ∧
      AudioDecoderIsacT.DecodeInternal (fun t : Int => t) (engineDecoding 480) s1 [2] 48000 =
        .ok ({ s1 with calls := s1.calls ++ [EngineCall.DecodeInternal [2]] }, 480, 1)) ∧
    AudioDecoderIsacT.DecodeInternal (fun t : Int => t) (engineDecoding 480) freshDecoder
        [1] 8000 = .error ⟨.UnsupportedSampleRate 8000, freshDecoder⟩ :=
  ⟨⟨_, _, rfl,
     C17_sample_rate_alias.2.1 (fun t : Int => t) (engineDecoding 480) (engineDecoding 480)
       freshDecoder _ [1] [2] _ rfl⟩,
   C17_sample_rate_alias.2.2 (fun t : Int => t) (engineDecoding 480) freshDecoder [1] 8000
     (by decide) (by decide) (by decide)⟩

/-! ## Theorems: the default capability toggles -/

/-- C18: the default `SetFec` and `SetDtx` return the negation of the request,
so a request to enable is answered false, and the default `SetApplication`
returns false for every application mode. -/
theorem C18_default_toggles_not_honored :
    (∀ enable : Bool, AudioEncoder.SetFec enable = !enable) ∧
    (∀ enable : Bool, AudioEncoder.SetDtx enable = !enable) ∧
    AudioEncoder.SetFec true = false ∧
    AudioEncoder.SetDtx true = false ∧
    (∀ {Application : Type} (application : Application),
      AudioEncoder.SetApplication application = false) :=
  ⟨fun _ => rfl, fun _ => rfl, rfl, rfl, fun _ => rfl⟩

/-! ## Theorems: the buffer pool -/

namespace Vp9FrameBufferPool

/-- A successful search replaced one entry that satisfied the test and left the
others in place. -/
theorem recycle_some {p : Vp9FrameBuffer → Bool} {f : Vp9FrameBuffer → Vp9FrameBuffer} :
    ∀ {bs bs1 : List Vp9FrameBuffer} {i : Nat}, recycle p f bs = some (bs1, i) →
      ∃ b, bs[i]? = some b ∧ p b = true ∧ bs1[i]? = some (f b) ∧
        ∀ j, j ≠ i → bs1[j]? = bs[j]? := by
  intro bs
  induction bs with
  | nil =>
    intro bs1 i h
    simp [recycle] at h
  | cons b bs ih =>
    intro bs1 i h
    unfold recycle at h
    by_cases hp : p b = true
    · simp only [hp, ↓reduceIte, Option.some.injEq, Prod.mk.injEq] at h
      obtain ⟨rfl, rfl⟩ := h
      refine ⟨b, by simp, hp, by simp, ?_⟩
      intro j hj
      cases j with
      | zero => exact absurd rfl hj
      | succ k => simp
    · simp only [hp, Bool.false_eq_true, ↓reduceIte] at h
      cases hrec : recycle p f bs with
      | none => simp [hrec] at h
      | some r =>
        obtain ⟨bs2, k⟩ := r
        simp only [hrec, Option.some.injEq, Prod.mk.injEq] at h
        obtain ⟨rfl, rfl⟩ := h
        obtain ⟨b0, h1, h2, h3, h4⟩ := ih hrec
        refine ⟨b0, by simpa using h1, h2, by simpa using h3, ?_⟩
        intro j hj
        cases j with
        | zero => simp
        | succ m =>
          have hm : m ≠ k := fun hmk => hj (by rw [hmk])
          simpa using h4 m hm

end Vp9FrameBufferPool

/-- C19: for every pool and every `min_size`, the entry `GetFrameBuffer` hands
out holds at least `min_size` bytes, whatever the sizes of the free entries
were; if it was in the pool before, no external holder referenced it; and every
other entry of the pool is left as it was. -/
theorem C19_GetFrameBuffer_size (pool : Vp9FrameBufferPool) (min_size : Nat) :
    ∃ b,
      (pool.GetFrameBuffer min_size).1.allocated_buffers_[(pool.GetFrameBuffer min_size).2]? =
        some b ∧
      min_size ≤ b.GetDataSize ∧
      (∀ old, pool.allocated_buffers_[(pool.GetFrameBuffer min_size).2]? = some old →
        old.HasOneRef = true) ∧
      (∀ j old, j ≠ (pool.GetFrameBuffer min_size).2 →
        pool.allocated_buffers_[j]? = some old →
        (pool.GetFrameBuffer min_size).1.allocated_buffers_[j]? = some old) := by
  unfold Vp9FrameBufferPool.GetFrameBuffer
  cases h1 : Vp9FrameBufferPool.recycle
      (fun b => b.HasOneRef && decide (min_size ≤ b.GetDataSize)) (fun b => b.AddRef)
      pool.allocated_buffers_ with
  | some r =>
    obtain ⟨bs, i⟩ := r
    obtain ⟨b, hb, hp, hnew, hrest⟩ := Vp9FrameBufferPool.recycle_some h1
    simp only [Bool.and_eq_true, decide_eq_true_eq] at hp
    refine ⟨b.AddRef, hnew, hp.2, ?_, ?_⟩
    · intro old hold
      simp only at hold
      rw [hb] at hold
      cases hold
      exact hp.1
    · intro j old hj hold
      simp only at hj hold ⊢
      rw [hrest j hj]
      exact hold
  | none =>
    cases h2 : Vp9FrameBufferPool.recycle (fun b => b.HasOneRef)
        (fun b => (b.SetSize min_size).AddRef) pool.allocated_buffers_ with
    | some r =>
      obtain ⟨bs, i⟩ := r
      obtain ⟨b, hb, hp, hnew, hrest⟩ := Vp9FrameBufferPool.recycle_some h2
      refine ⟨(b.SetSize min_size).AddRef, hnew, le_refl _, ?_, ?_⟩
      · intro old hold
        simp only at hold
        rw [hb] at hold
        cases hold
        exact hp
      · intro j old hj hold
        simp only at hj hold ⊢
        rw [hrest j hj]
        exact hold
    | none =>
      refine ⟨{ data_size := min_size, ref_count := 2 }, by simp, le_refl _, ?_, ?_⟩
      · intro old hold
        simp at hold
      · intro j old hj hold
        simp only at hj hold ⊢
        have hlt : j < pool.allocated_buffers_.length := by
          by_contra hge
          rw [List.getElem?_eq_none (by omega)] at hold
          cases hold
        rw [List.getElem?_append_left hlt]
        exact hold

/-- Witness for C19: in a pool whose free entries hold 16 and 32 bytes, a
request for 100 bytes hands out the first free entry, grown to 100 bytes, and
leaves the entry in use and the other free entry as they were. -/
theorem C19_GetFrameBuffer_size_witness :
    smallPool.GetFrameBuffer 100 =
      ({ allocated_buffers_ :=
           [{ data_size := 64, ref_count := 2 }, { data_size := 100, ref_count := 2 },
            { data_size := 32, ref_count := 1 }] }, 1) ∧
    ∃ b,
      (smallPool.GetFrameBuffer 100).1.allocated_buffers_[(smallPool.GetFrameBuffer 100).2]? =
        some b ∧
      100 ≤ b.GetDataSize :=
  ⟨by decide,
   match C19_GetFrameBuffer_size smallPool 100 with
   | ⟨b, hb, hsize, _⟩ => ⟨b, hb, hsize⟩⟩

/-! ## Theorems: the ceilings of a configuration, and the Store without adaptive mode -/

/-- C22: a ceiling that is neither -1 nor within its range (for `max_bit_rate`
32000..53400 at 16000 Hz and 32000..160000 at 32000 or 48000 Hz; for
`max_payload_size_bytes` 120..400 and 120..600) makes `IsOk` false; and on a
configuration that passes `IsOk` with a ceiling unset, setting that ceiling to
any value within its range keeps `IsOk` true. -/
theorem C22_ceiling_validation (has_swb : Bool) (c : Config) :
    (c.sample_rate_hz = 16000 → c.max_bit_rate ≠ -1 →
      ¬ (32000 ≤ c.max_bit_rate ∧ c.max_bit_rate ≤ 53400) → c.IsOk has_swb = false) ∧
    (c.sample_rate_hz = 32000 ∨ c.sample_rate_hz = 48000 → c.max_bit_rate ≠ -1 →
      ¬ (32000 ≤ c.max_bit_rate ∧ c.max_bit_rate ≤ 160000) → c.IsOk has_swb = false) ∧
    (c.sample_rate_hz = 16000 → c.max_payload_size_bytes ≠ -1 →
      ¬ (120 ≤ c.max_payload_size_bytes ∧ c.max_payload_size_bytes ≤ 400) →
      c.IsOk has_swb = false) ∧
    (c.sample_rate_hz = 32000 ∨ c.sample_rate_hz = 48000 → c.max_payload_size_bytes ≠ -1 →
      ¬ (120 ≤ c.max_payload_size_bytes ∧ c.max_payload_size_bytes ≤ 600) →
      c.IsOk has_swb = false) ∧
    (c.IsOk has_swb = true → c.max_bit_rate = -1 →
      ∀ v : Int, 32000 ≤ v → v ≤ (if c.sample_rate_hz = 16000 then 53400 else 160000) →
      Config.IsOk has_swb { c with max_bit_rate := v } = true) ∧
    (c.IsOk has_swb = true → c.max_payload_size_bytes = -1 →
      ∀ v : Int, 120 ≤ v → v ≤ (if c.sample_rate_hz = 16000 then 400 else 600) →
      Config.IsOk has_swb { c with max_payload_size_bytes := v } = true) := by
  refine ⟨?_, ?_, ?_, ?_, ?_, ?_⟩
  · intro h16 hne hout
    by_cases hlow : c.max_bit_rate < 32000
    · simp [Config.IsOk, hlow, hne]
    · have hhigh : c.max_bit_rate > 53400 := by omega
      by_cases hp : c.max_payload_size_bytes < 120 ∧ c.max_payload_size_bytes ≠ -1
      · simp [Config.IsOk, hp.1, hp.2]
      · unfold Config.IsOk
        simp only [h16, hhigh]
        simp
  · intro hwide hne hout
    have h16 : c.sample_rate_hz ≠ 16000 := by rcases hwide with h | h <;> rw [h] <;> decide
    have hsel : (c.sample_rate_hz == 32000 || c.sample_rate_hz == 48000) = true := by
      rcases hwide with h | h <;> simp [h]
    by_cases hlow : c.max_bit_rate < 32000
    · simp [Config.IsOk, hlow, hne]
    · have hhigh : c.max_bit_rate > 160000 := by omega
      unfold Config.IsOk
      simp only [hsel, hhigh]
      simp [h16]
  · intro h16 hne hout
    by_cases hlow : c.max_payload_size_bytes < 120
    · simp [Config.IsOk, hlow, hne]
    · have hhigh : c.max_payload_size_bytes > 400 := by omega
      unfold Config.IsOk
      simp only [h16, hhigh]
      simp
  · intro hwide hne hout
    have h16 : c.sample_rate_hz ≠ 16000 := by rcases hwide with h | h <;> rw [h] <;> decide
    have hsel : (c.sample_rate_hz == 32000 || c.sample_rate_hz == 48000) = true := by
      rcases hwide with h | h <;> simp [h]
    by_cases hlow : c.max_payload_size_bytes < 120
    · simp [Config.IsOk, hlow, hne]
    · have hhigh : c.max_payload_size_bytes > 600 := by omega
      unfold Config.IsOk
      simp only [hsel, hhigh]
      simp [h16]
  · intro hok hunset v hlo hhi
    have hv1 : ¬ v < 32000 := by omega
    rcases c with ⟨bw, pt, sr, fs, br, mps, mbr, am, efs⟩
    simp only at hunset hhi
    subst hunset
    by_cases h16 : sr = 16000
    · have hv2 : ¬ v > 53400 := by simp only [h16, ↓reduceIte] at hhi; omega
      subst h16
      simp only [Config.IsOk] at hok ⊢
      simpa [hv1, hv2] using hok
    · have hv2 : ¬ v > 160000 := by simp only [h16, ↓reduceIte] at hhi; omega
      simp only [Config.IsOk] at hok ⊢
      simpa [hv1, hv2, h16] using hok
  · intro hok hunset v hlo hhi
    have hv1 : ¬ v < 120 := by omega
    rcases c with ⟨bw, pt, sr, fs, br, mps, mbr, am, efs⟩
    simp only at hunset hhi
    subst hunset
    by_cases h16 : sr = 16000
    · have hv2 : ¬ v > 400 := by simp only [h16, ↓reduceIte] at hhi; omega
      subst h16
      simp only [Config.IsOk] at hok ⊢
      simpa [hv1, hv2] using hok
    · have hv2 : ¬ v > 600 := by simp only [h16, ↓reduceIte] at hhi; omega
      simp only [Config.IsOk] at hok ⊢
      simpa [hv1, hv2, h16] using hok

/-- Witness for C22: at 16000 Hz a bit-rate ceiling of 53401 and a payload
ceiling of 401 are rejected, and the default configuration stays valid with the
ceilings 53400 and 400; at 48000 Hz the ceiling 160000 keeps a valid
configuration valid. -/
theorem C22_ceiling_validation_witness :
    Config.IsOk false { max_bit_rate := 53401 } = false ∧
    Config.IsOk false { max_payload_size_bytes := 401 } = false ∧
    Config.IsOk false { max_bit_rate := 53400 } = true ∧
    Config.IsOk false { max_payload_size_bytes := 400 } = true ∧
    Config.IsOk true { sample_rate_hz := 48000, max_bit_rate := 160000 } = true :=
  ⟨(C22_ceiling_validation false { max_bit_rate := 53401 }).1 rfl (by decide) (by decide),
   (C22_ceiling_validation false { max_payload_size_bytes := 401 }).2.2.1 rfl (by decide)
     (by decide),
   (C22_ceiling_validation false {}).2.2.2.2.1 (by decide) rfl 53400 (by decide) (by decide),
   (C22_ceiling_validation false {}).2.2.2.2.2 (by decide) rfl 400 (by decide) (by decide),
   (C22_ceiling_validation true { sample_rate_hz := 48000 }).2.2.2.2.1 (by decide) rfl 160000
     (by decide) (by decide)⟩

/-- C23: on an encoder constructed from any configuration that passes `IsOk`,
adaptive or not, and then used for any `Encode` and `Reset` operations, an
`EncodeInternal` call pushes the Store's current value with `SetBandwidthInfo`
before `Encode` when the configuration has a Store attached, and issues no
`SetBandwidthInfo` when it has none. -/
theorem C23_store_pushed_iff_attached (T0 : IsacT) (pts lts : Nat) (config : Config)
    (ops : List EncoderOp) (s0 s : AudioEncoderIsacT)
    (hcreate : AudioEncoderIsacT.create T0 pts lts config = .ok s0)
    (hops : applyOps s0 ops = .ok s)
    (T : IsacT) (stores : Stores) (rtp_timestamp : Nat) (audio : List Int)
    (max_encoded_bytes : Nat) :
    (∀ p, config.bwinfo = some p →
      (objectAfter (s.EncodeInternal T stores rtp_timestamp audio max_encoded_bytes)).calls =
        s.calls ++ [EngineCall.SetBandwidthInfo (stores p).Get, EngineCall.Encode audio] ++
          (if T.ret (.Encode audio) < 0 then [EngineCall.GetErrorCode] else [])) ∧
    (config.bwinfo = none →
      (objectAfter (s.EncodeInternal T stores rtp_timestamp audio max_encoded_bytes)).calls =
        s.calls ++ [EngineCall.Encode audio] ++
          (if T.ret (.Encode audio) < 0 then [EngineCall.GetErrorCode] else [])) := by
  obtain ⟨-, -, hc, hb, -⟩ := AudioEncoderIsacT.RecreateEncoderInstance_ok hcreate
  obtain ⟨-, hb1⟩ := applyOps_frame ops s0 s hops (by rw [hb, hc])
  have hsb : s.bwinfo_ = config.bwinfo := by rw [hb1, hb]
  constructor
  · intro p hp
    rw [AudioEncoderIsacT.EncodeInternal_calls, hsb, hp]
    simp
  · intro hnone
    rw [AudioEncoderIsacT.EncodeInternal_calls, hsb, hnone]
    simp

/-- Witness for C23: a non-adaptive encoder with the Store at address 0
attached pushes the Store's value `[2]`, and a non-adaptive encoder without a
Store only calls `Encode`. -/
theorem C23_store_pushed_iff_attached_witness :
    (∃ s0, AudioEncoderIsacT.create (engineReporting []) 0 0 { bwinfo := some 0 } = .ok s0 ∧
      (objectAfter (s0.EncodeInternal (engineReturning 0) (storesHolding 2) 0 [] 400)).calls =
        s0.calls ++ [EngineCall.SetBandwidthInfo ((storesHolding 2) 0).Get,
          EngineCall.Encode []] ++
          (if (engineReturning 0).ret (.Encode []) < 0 then [EngineCall.GetErrorCode]
            else [])) ∧
    (∃ s0, AudioEncoderIsacT.create (engineReporting []) 0 0 {} = .ok s0 ∧
      (objectAfter (s0.EncodeInternal (engineReturning 0) (storesHolding 2) 0 [] 400)).calls =
        s0.calls ++ [EngineCall.Encode []] ++
          (if (engineReturning 0).ret (.Encode []) < 0 then [EngineCall.GetErrorCode]
            else [])) :=
  ⟨⟨_, rfl,
     (C23_store_pushed_iff_attached (engineReporting []) 0 0 { bwinfo := some 0 } [] _ _ rfl
       rfl (engineReturning 0) (storesHolding 2) 0 [] 400).1 0 rfl⟩,
   ⟨_, rfl,
     (C23_store_pushed_iff_attached (engineReporting []) 0 0 {} [] _ _ rfl
       rfl (engineReturning 0) (storesHolding 2) 0 [] 400).2 rfl⟩⟩

/-! ## Theorems: the H.264 encoder -/

namespace H264EncoderImpl

/-- `Release` returns `WEBRTC_VIDEO_CODEC_OK`. -/
theorem Release_ret (ext : VideoCodecExternals) (s : H264EncoderImpl) :
    (s.Release ext).2 = ext.WEBRTC_VIDEO_CODEC_OK := rfl

/-- Once the parameter checks of `InitEncode` have passed, the value returned
is `WEBRTC_VIDEO_CODEC_OK` or `WEBRTC_VIDEO_CODEC_ERROR`. -/
theorem InitEncode_checked_ret (ext : VideoCodecExternals) (x264 : X264) (s : H264EncoderImpl)
    (inst : VideoCodec) (number_of_cores : Int)
    (h1 : ¬ inst.maxFramerate < 1)
    (h2 : ¬ (inst.maxBitrate > 0 ∧ inst.startBitrate > inst.maxBitrate))
    (h3 : ¬ inst.width < 1) (h4 : ¬ inst.height < 1) (h5 : ¬ number_of_cores < 1) :
    (s.InitEncode ext x264 (some inst) number_of_cores).2 = ext.WEBRTC_VIDEO_CODEC_OK ∨
    (s.InitEncode ext x264 (some inst) number_of_cores).2 = ext.WEBRTC_VIDEO_CODEC_ERROR := by
  have h2b : (decide (inst.maxBitrate > 0) && decide (inst.startBitrate > inst.maxBitrate)) =
      false := by
    simpa using h2
  have h34 : (decide (inst.width < 1) || decide (inst.height < 1)) = false := by
    simp [h3, h4]
  simp only [InitEncode, h1, h2b, h34, h5, ↓reduceIte, Bool.false_eq_true]
  split_ifs <;> simp [InitEncode.fail, Release_ret]

/-- When the NAL loop completes, the entries of the fragmentation header it
has assigned are the start of each payload in the image buffer and the full
size of each payload. -/
theorem Encode.copyNals_ok :
    ∀ (nals : List x264_nal_t) (k : Nat) (img img1 : EncodedImage)
      (frag frag1 : RTPFragmentationHeader) (doneOffset doneLength : List Nat),
      doneOffset.length = k → doneLength.length = k →
      frag.fragmentationOffset = doneOffset ++ List.replicate nals.length 0 →
      frag.fragmentationLength = doneLength ++ List.replicate nals.length 0 →
      Encode.copyNals nals k img frag = .ok (img1, frag1) →
      frag1.fragmentationOffset = doneOffset ++ nalStarts img._length nals ∧
      frag1.fragmentationLength = doneLength ++ nals.map x264_nal_t.i_payload ∧
      img1._length = img._length + (nals.map x264_nal_t.i_payload).sum := by
  intro nals
  induction nals with
  | nil =>
    intro k img img1 frag frag1 doneOffset doneLength _ _ hO hL h
    simp only [Encode.copyNals, Except.ok.injEq, Prod.mk.injEq] at h
    obtain ⟨rfl, rfl⟩ := h
    simp only [List.length_nil, List.replicate_zero, List.append_nil] at hO hL
    simp [nalStarts, hO, hL]
  | cons nal rest ih =>
    intro k img img1 frag frag1 doneOffset doneLength hkO hkL hO hL h
    unfold Encode.copyNals at h
    cases hcopy : memcpy img._buffer img._length nal.p_payload with
    | error fault => simp [hcopy] at h
    | ok buffer =>
      simp only [hcopy] at h
      have := ih (k + 1) _ img1 _ frag1 (doneOffset ++ [img._length])
        (doneLength ++ [nal.i_payload]) (by simp [hkO]) (by simp [hkL])
        (by
          simp only [hO, List.length_cons, List.replicate_succ]
          rw [List.set_append_right _ _ (by omega)]
          simp [hkO])
        (by
          simp only [hL, List.length_cons, List.replicate_succ]
          rw [List.set_append_right _ _ (by omega)]
          simp [hkL])
        h
      obtain ⟨h1, h2, h3⟩ := this
      refine ⟨?_, ?_, ?_⟩
      · rw [h1]
        simp [nalStarts]
      · rw [h2]
        simp
      · rw [h3]
        simp only [List.map_cons, List.sum_cons]
        omega

end H264EncoderImpl

/-- C24: provided the return code `ERR_PARAMETER` differs from `OK` and from
`ERROR`, `InitEncode` returns `ERR_PARAMETER` exactly when the settings pointer
is null, or `maxFramerate < 1`, or `maxBitrate > 0` and
`startBitrate > maxBitrate`, or `width < 1`, or `height < 1`, or
`number_of_cores < 1`; with `maxBitrate = 0` no `startBitrate` is refused; and
when `ERR_PARAMETER` is returned the encoder is exactly as it was. -/
theorem C24_InitEncode_parameter_errors (ext : VideoCodecExternals) (x264 : X264)
    (s : H264EncoderImpl) (inst : Option VideoCodec) (number_of_cores : Int)
    (hok : ext.WEBRTC_VIDEO_CODEC_ERR_PARAMETER ≠ ext.WEBRTC_VIDEO_CODEC_OK)
    (herror : ext.WEBRTC_VIDEO_CODEC_ERR_PARAMETER ≠ ext.WEBRTC_VIDEO_CODEC_ERROR) :
    ((s.InitEncode ext x264 inst number_of_cores).2 = ext.WEBRTC_VIDEO_CODEC_ERR_PARAMETER ↔
      (inst = none ∨ number_of_cores < 1 ∨
        ∃ v, inst = some v ∧
          (v.maxFramerate < 1 ∨ (v.maxBitrate > 0 ∧ v.startBitrate > v.maxBitrate) ∨
            v.width < 1 ∨ v.height < 1))) ∧
    (∀ v, inst = some v → v.maxBitrate = 0 → 1 ≤ v.maxFramerate → 1 ≤ v.width →
      1 ≤ v.height → 1 ≤ number_of_cores →
      (s.InitEncode ext x264 inst number_of_cores).2 ≠ ext.WEBRTC_VIDEO_CODEC_ERR_PARAMETER) ∧
    ((s.InitEncode ext x264 inst number_of_cores).2 = ext.WEBRTC_VIDEO_CODEC_ERR_PARAMETER →
      (s.InitEncode ext x264 inst number_of_cores).1 = s) := by
  cases inst with
  | none =>
    refine ⟨?_, ?_, ?_⟩
    · simp [H264EncoderImpl.InitEncode]
    · intro v hv
      cases hv
    · intro _
      rfl
  | some v =>
    by_cases h1 : v.maxFramerate < 1
    · refine ⟨?_, ?_, ?_⟩
      · simp [H264EncoderImpl.InitEncode, h1]
      · intro w hw _ hfr
        cases hw
        omega
      · intro _
        simp [H264EncoderImpl.InitEncode, h1]
    · by_cases h2 : v.maxBitrate > 0 ∧ v.startBitrate > v.maxBitrate
      · refine ⟨?_, ?_, ?_⟩
        · simp [H264EncoderImpl.InitEncode, h1, h2.1, h2.2]
        · intro w hw hzero
          cases hw
          omega
        · intro _
          simp [H264EncoderImpl.InitEncode, h1, h2.1, h2.2]
      · have h2b : (decide (v.maxBitrate > 0) && decide (v.startBitrate > v.maxBitrate)) =
            false := by
          simpa using h2
        by_cases h34 : v.width < 1 ∨ v.height < 1
        · have h34b : (decide (v.width < 1) || decide (v.height < 1)) = true := by
            simpa using h34
          refine ⟨⟨fun _ => Or.inr (Or.inr ⟨v, rfl, Or.inr (Or.inr h34)⟩), fun _ => ?_⟩, ?_, ?_⟩
          · simp only [H264EncoderImpl.InitEncode, h1, h2b, h34b, ↓reduceIte,
              Bool.false_eq_true]
          · intro w hw _ _ hwd hht
            cases hw
            omega
          · intro _
            simp only [H264EncoderImpl.InitEncode, h1, h2b, h34b, ↓reduceIte,
              Bool.false_eq_true]
        · have h34b : (decide (v.width < 1) || decide (v.height < 1)) = false := by
            simpa using h34
          simp only [not_or] at h34
          by_cases h5 : number_of_cores < 1
          · refine ⟨⟨fun _ => Or.inr (Or.inl h5), fun _ => ?_⟩, ?_, ?_⟩
            · simp only [H264EncoderImpl.InitEncode, h1, h2b, h34b, h5, ↓reduceIte,
                Bool.false_eq_true]
            · intro w _ _ _ _ _ hcores
              omega
            · intro _
              simp only [H264EncoderImpl.InitEncode, h1, h2b, h34b, h5, ↓reduceIte,
                Bool.false_eq_true]
          · have hret := H264EncoderImpl.InitEncode_checked_ret ext x264 s v number_of_cores
              h1 h2 h34.1 h34.2 h5
            have hne : (s.InitEncode ext x264 (some v) number_of_cores).2 ≠
                ext.WEBRTC_VIDEO_CODEC_ERR_PARAMETER := by
              rcases hret with h | h <;> rw [h]
              · exact fun hc => hok hc.symm
              · exact fun hc => herror hc.symm
            refine ⟨?_, ?_, ?_⟩
            · constructor
              · intro hc
                exact absurd hc hne
              · rintro (hc | hc | ⟨w, hw, hc⟩)
                · cases hc
                · exact absurd hc h5
                · cases hw
                  rcases hc with hc | hc | hc | hc
                  · exact absurd hc h1
                  · exact absurd hc h2
                  · exact absurd hc h34.1
                  · exact absurd hc h34.2
            · intro _ _ _ _ _ _ _
              exact hne
            · intro hc
              exact absurd hc hne

/-- Witness for C24: with the upstream return codes, settings whose start bit
rate 300 exceeds the maximum 200 are refused with -4 and leave a fresh encoder
as it was, and the same settings with `maxBitrate = 0` are not refused. -/
theorem C24_InitEncode_parameter_errors_witness :
    freshH264.InitEncode upstreamExternals (x264Returning 0 [])
        (some { tinySettings with maxBitrate := 200 }) 1 = (freshH264, -4) ∧
    (freshH264.InitEncode upstreamExternals (x264Returning 0 []) (some tinySettings) 1).2 ≠
      -4 :=
  have h := C24_InitEncode_parameter_errors upstreamExternals (x264Returning 0 []) freshH264
    (some { tinySettings with maxBitrate := 200 }) 1 (by decide) (by decide)
  ⟨Prod.ext (h.2.2 (h.1.mpr (Or.inr (Or.inr ⟨_, rfl, Or.inr (Or.inl (by decide))⟩))))
      (h.1.mpr (Or.inr (Or.inr ⟨_, rfl, Or.inr (Or.inl (by decide))⟩))),
   (C24_InitEncode_parameter_errors upstreamExternals (x264Returning 0 []) freshH264
      (some tinySettings) 1 (by decide) (by decide)).2.1 tinySettings rfl rfl (by decide)
      (by decide) (by decide) (by decide)⟩

/-- C21: what the NAL loop of `Encode` writes. For every NAL array, when the
loop completes the image length is the sum of the payload sizes, and fragment
`i` has the start of NAL `i` in the buffer as its offset and the full payload
size as its length, so the fragments include the start codes. Evaluated on two
NAL units of 5 and 6 bytes, each with its four-byte start code: both payloads
are copied back to back into the image buffer (11 bytes), and the header handed
to the callback has offsets 0 and 5 and lengths 5 and 6, where offsets 4 and 9
and lengths 1 and 2 would exclude the start codes. -/
theorem C21_fragments_include_start_codes :
    (∀ (nals : List x264_nal_t) (img img1 : EncodedImage) (frag1 : RTPFragmentationHeader),
      H264EncoderImpl.Encode.copyNals nals 0 { img with _length := 0 }
        (({} : RTPFragmentationHeader).VerifyAndAllocateFragmentationHeader nals.length) =
        .ok (img1, frag1) →
      frag1.fragmentationOffset = nalStarts 0 nals ∧
      frag1.fragmentationLength = nals.map x264_nal_t.i_payload ∧
      img1._length = (nals.map x264_nal_t.i_payload).sum) ∧
    ∃ s1 image frag,
      readyH264.Encode upstreamExternals (x264Returning 11 twoNals) someFrame none =
        .ok (s1, 0) ∧
      s1.delivered = [(image, frag)] ∧
      image._length = 11 ∧
      image._buffer.map (List.take 11) = some [0, 0, 0, 1, 103, 0, 0, 0, 1, 101, 136] ∧
      frag.fragmentationVectorSize = 2 ∧
      frag.fragmentationOffset = [0, 5] ∧
      frag.fragmentationLength = [5, 6] ∧
      frag.fragmentationOffset ≠ [0 + 4, 5 + 4] ∧
      frag.fragmentationLength ≠ [5 - 4, 6 - 4] := by
  constructor
  · intro nals img img1 frag1 h
    have hloop := H264EncoderImpl.Encode.copyNals_ok nals 0 { img with _length := 0 } img1 _
      frag1 [] [] rfl rfl rfl rfl h
    simpa using hloop
  · exact ⟨_, _, _, rfl, rfl, rfl, rfl, rfl, rfl, rfl, by decide, by decide⟩

/-- C25: `Release` clears the encoder handle and never the flag `inited_`. On
the upstream return codes, after a successful `InitEncode` and a `Release` the
flag is still set while `IsInitialized` is false; an `Encode` then passes the
guard, calls `x264_encoder_encode` with the null handle and returns 0 (`OK`)
where `UNINITIALIZED` is -7; and when x264 returns NAL units that `Encode`
copies them to the null image buffer. -/
theorem C25_Release_leaves_inited_set :
    (∀ (ext : VideoCodecExternals) (s : H264EncoderImpl),
      (s.Release ext).1.inited_ = s.inited_ ∧ (s.Release ext).1.IsInitialized = false) ∧
    ∃ s1 s2 s3,
      H264Op.applyAll upstreamExternals freshH264
        [.InitEncode (x264Returning 0 []) (some tinySettings) 1,
         .RegisterEncodeCompleteCallback (some 5)] = .ok s1 ∧
      s1.inited_ = true ∧ s1.IsInitialized = true ∧
      s1.Release upstreamExternals = (s2, 0) ∧
      s2.inited_ = true ∧ s2.IsInitialized = false ∧
      s2.Encode upstreamExternals (x264Returning 0 []) someFrame none = .ok (s3, 0) ∧
      s3.calls.getLast? = some (X264Call.x264_encoder_encode none 1) ∧
      upstreamExternals.WEBRTC_VIDEO_CODEC_UNINITIALIZED = -7 ∧
      s2.Encode upstreamExternals (x264Returning 11 twoNals) someFrame none =
        .error Fault.NullDestination := by
  constructor
  · intro ext s
    rcases s with ⟨enc, cb, ini, cs, img, ib, pts, fr, calls, del⟩
    cases enc <;> cases hb : img._buffer <;>
      simp [H264EncoderImpl.Release, H264EncoderImpl.IsInitialized, hb]
  · exact ⟨_, _, _, rfl, rfl, rfl, rfl, rfl, rfl, rfl, rfl, rfl, rfl⟩

end webrtc
